import Mathlib

/-!
# CAffinity: `set_app_affinity`

A shallow embedding of `Sources/CAffinity/set_app_affinity.c`.  The C function
restricts every thread of the calling process to the first `num_cores` cores:
it validates `num_cores`, builds a `cpu_set_t`, opens `/proc/self/task`, and
calls `sched_setaffinity` for every entry whose name does not start with `.`.

The operating system is an explicit input (`Env`): whether `opendir` succeeds,
which entries `readdir` yields and how it ends, what `sched_setaffinity`
answers for each entry, and which CPUs each thread may use.  The observable
effects are an explicit `State`: `errno`, the affinity of every thread, the
number of open directory handles and the sequence of library calls made.  A
library call that succeeds leaves `errno` as it was; a call that fails stores
its error number there.
-/

namespace CAffinity

/-! ## Constants of the C library headers -/

/-- The constants that `set_app_affinity.c` takes from `<sched.h>`,
`<errno.h>` and `<limits.h>`; those headers are not part of the repository, so
the constants are parameters of the embedding. -/
structure Platform where
  CPU_SETSIZE : Nat
  LONG_MAX : Int
  EINVAL : Int
  EPERM : Int
  ESRCH : Int
  ERANGE : Int

/-- The C language requires the `errno` macros to be positive, and the labels
of one `switch` to be distinct. -/
def Platform.wf (P : Platform) : Prop :=
  0 < P.EINVAL ∧ 0 < P.EPERM ∧ 0 < P.ESRCH ∧
  P.EINVAL ≠ P.EPERM ∧ P.EINVAL ≠ P.ESRCH ∧ P.EPERM ≠ P.ESRCH ∧ 0 < P.ERANGE

instance (P : Platform) : Decidable P.wf := by
  unfold Platform.wf; infer_instance

/-- The values of 64-bit Linux with glibc: `CPU_SETSIZE = 1024`,
`LONG_MAX = 2^63 - 1`, `EINVAL = 22`, `EPERM = 1`, `ESRCH = 3`, `ERANGE = 34`. -/
def linux : Platform := ⟨1024, 9223372036854775807, 22, 1, 3, 34⟩

/-! ## `cpu_set_t`

A `cpu_set_t` is an array of `CPU_SETSIZE` bits; it is embedded as the natural
number whose binary digits are those bits. -/

/-- The macro `CPU_ZERO(&set)`: the empty set. -/
def CPU_ZERO : Nat := 0

/-- The macro `CPU_SET(cpu, &set)`: adds `cpu` to the set; like the glibc
macro it leaves the set alone when `cpu` is not below `CPU_SETSIZE`. -/
def CPU_SET (P : Platform) (cpu : Nat) (set : Nat) : Nat :=
  if cpu < P.CPU_SETSIZE then set ||| (1 <<< cpu) else set

/-- The macro `CPU_ISSET(cpu, &set)`: membership of `cpu`, false outside the
capacity. -/
def CPU_ISSET (P : Platform) (cpu : Nat) (set : Nat) : Bool :=
  decide (cpu < P.CPU_SETSIZE) && set.testBit cpu

/-- Lines 29-32: `CPU_ZERO(&cpumask); for (int i = 0; i < num_cores; i++)
CPU_SET(i, &cpumask);`. -/
def build_cpumask (P : Platform) (num_cores : Nat) : Nat :=
  (List.range num_cores).foldl (fun cpumask i => CPU_SET P i cpumask) CPU_ZERO

/-! ## The operating system and the observable state -/

/-- The answer of a library call: success, or failure with the value it stores
in `errno`. -/
inductive Answer where
  | ok
  | fail (e : Int)
  deriving DecidableEq, Repr

/-- One entry of `/proc/self/task` as `readdir` yields it, together with the
answer `sched_setaffinity` gives when it is called for this entry. -/
structure TaskEntry where
  d_name : List Char
  answer : Answer
  deriving DecidableEq, Repr

/-- How the directory stream ends: `readdir` returns `NULL` either at the end
of the stream (`errno` untouched) or on a read error (`errno` set). -/
inductive StreamEnd where
  | eof
  | error (e : Int)
  deriving DecidableEq, Repr

/-- What the operating system answers during one invocation. -/
structure Env where
  /-- the id of the calling thread, the target of `sched_setaffinity(0, ..)` -/
  self_tid : Int
  /-- the CPUs each thread may use (online and allowed by its cpuset), as a
  bit set; the kernel stores the requested mask restricted to them -/
  usable : Int → Nat
  /-- the answer of `opendir("/proc/self/task")` -/
  opendir : Answer
  /-- the entries `readdir` yields, in order -/
  entries : List TaskEntry
  /-- how the stream ends after those entries -/
  stream_end : StreamEnd

/-- A library call with its arguments. -/
inductive Call where
  | opendir
  | readdir
  | sched_setaffinity (tid : Int) (mask : Nat)
  | closedir
  deriving DecidableEq, Repr

/-- The observable state. -/
structure State where
  /-- the C `errno` -/
  errno : Int
  /-- the affinity mask of every thread id -/
  affinity : Int → Nat
  /-- the number of directory handles that are open -/
  open_dirs : Nat
  /-- the library calls made so far, oldest first -/
  trace : List Call

/-- The `sched_setaffinity` calls of a trace, in order. -/
def affinity_calls : List Call → List (Int × Nat)
  | [] => []
  | Call.sched_setaffinity tid mask :: t => (tid, mask) :: affinity_calls t
  | _ :: t => affinity_calls t

/-- The number of `readdir` calls of a trace. -/
def readdir_count : List Call → Nat
  | [] => 0
  | Call.readdir :: t => readdir_count t + 1
  | _ :: t => readdir_count t

/-- The thread a `sched_setaffinity(pid, ..)` call addresses: `pid = 0` is the
calling thread. -/
def target (self_tid pid : Int) : Int :=
  if pid = 0 then self_tid else pid

/-- The call `opendir("/proc/self/task")`: on success a handle is open (result
`true`); on failure `errno` is set and the result is `NULL` (`false`). -/
def opendir (env : Env) (s : State) : Bool × State :=
  match env.opendir with
  | Answer.ok =>
    (true, { s with open_dirs := s.open_dirs + 1, trace := s.trace ++ [Call.opendir] })
  | Answer.fail e =>
    (false, { s with errno := e, trace := s.trace ++ [Call.opendir] })

/-- The call `closedir(proc_dir)`: releases the handle. -/
def closedir (s : State) : State :=
  { s with open_dirs := s.open_dirs - 1, trace := s.trace ++ [Call.closedir] }

/-- The call `sched_setaffinity(tid, sizeof(cpu_set_t), &cpumask)` with the
answer the operating system gives: on success the thread's affinity becomes
the requested mask restricted to the CPUs the thread may use, and the result is
0 (`errno` untouched); on failure nothing changes but `errno`, and the result
is -1.  The kernel answers with success only when the restricted mask is not
empty, and with `EINVAL` otherwise. -/
def sched_setaffinity (env : Env) (tid : Int) (cpumask : Nat) (a : Answer)
    (s : State) : Int × State :=
  match a with
  | Answer.ok =>
    (0, { s with
          affinity := fun t =>
            if t = target env.self_tid tid then cpumask &&& env.usable t else s.affinity t,
          trace := s.trace ++ [Call.sched_setaffinity tid cpumask] })
  | Answer.fail e =>
    (-1, { s with errno := e, trace := s.trace ++ [Call.sched_setaffinity tid cpumask] })

/-! ## `atoi`

In glibc `atoi(nptr)` is `(int) strtol(nptr, NULL, 10)`. -/

/-- The C `isspace` in the C locale: space, `\t`, `\n`, `\v`, `\f`, `\r`. -/
def isspace (c : Char) : Bool :=
  c = ' ' || c = '\t' || c = '\n' || c = '\x0b' || c = '\x0c' || c = '\r'

/-- The C `isdigit`: the characters `0` to `9`. -/
def isdigit (c : Char) : Bool :=
  decide ('0' ≤ c) && decide (c ≤ '9')

/-- The value of the longest run of leading decimal digits, accumulated from
`acc`. -/
def atoi_digits : List Char → Nat → Nat
  | [], acc => acc
  | c :: cs, acc =>
    if isdigit c then atoi_digits cs (acc * 10 + (c.toNat - '0'.toNat)) else acc

/-- The optional sign and the digits, after the white space: the number the
text denotes. -/
def atoi_signed : List Char → Int
  | '-' :: cs => -(atoi_digits cs 0 : Int)
  | '+' :: cs => (atoi_digits cs 0 : Int)
  | cs => (atoi_digits cs 0 : Int)

/-- What `strtol(nptr, NULL, 10)` computes: the number the text denotes when
it is in the range of `long`, else `LONG_MAX` or `LONG_MIN` and a range
error. -/
def strtol_result (P : Platform) (nptr : List Char) : Int × Bool :=
  let v := atoi_signed (nptr.dropWhile isspace)
  if v > P.LONG_MAX then (P.LONG_MAX, true)
  else if v < -P.LONG_MAX - 1 then (-P.LONG_MAX - 1, true)
  else (v, false)

/-- The call `strtol(nptr, NULL, 10)`: on a range error `errno` is set to
`ERANGE`, otherwise it is untouched. -/
def strtol (P : Platform) (nptr : List Char) (s : State) : Int × State :=
  ((strtol_result P nptr).1,
   if (strtol_result P nptr).2 then { s with errno := P.ERANGE } else s)

/-- Conversion of a `long` to the C type `int` (32 bits, two's complement). -/
def to_int (v : Int) : Int :=
  (v + 2 ^ 31) % 2 ^ 32 - 2 ^ 31

/-- The call `atoi(nptr)`, that is `(int) strtol(nptr, NULL, 10)`. -/
def atoi (P : Platform) (nptr : List Char) (s : State) : Int × State :=
  (to_int (strtol P nptr s).1, (strtol P nptr s).2)

/-! ## The function -/

/-- The expression `entry->d_name[0]`: the first character of a C string, the
terminating NUL when it is empty. -/
def first_char (d_name : List Char) : Char :=
  d_name.headD (Char.ofNat 0)

/-- Lines 42-63, the `while ((entry = readdir(proc_dir)) != NULL)` loop.  The
result is `some code` when the loop body returns `code`, and `none` when
`readdir` returns `NULL` and the loop ends. -/
def scan (P : Platform) (env : Env) (cpumask : Nat) :
    List TaskEntry → State → Option Int × State
  | [], s =>
    let s := { s with trace := s.trace ++ [Call.readdir] }
    match env.stream_end with
    | StreamEnd.eof => (none, s)
    | StreamEnd.error e => (none, { s with errno := e })
  | entry :: rest, s =>
    let s := { s with trace := s.trace ++ [Call.readdir] }
    if first_char entry.d_name = '.' then
      scan P env cpumask rest s
    else
      let a := atoi P entry.d_name s
      let tid := a.1
      let r := sched_setaffinity env tid cpumask entry.answer a.2
      if r.1 ≠ 0 then
        if r.2.errno = P.EINVAL then (some (-2), r.2)
        else if r.2.errno = P.EPERM then (some (-3), r.2)
        else if r.2.errno = P.ESRCH then scan P env cpumask rest r.2
        else scan P env cpumask rest r.2
      else scan P env cpumask rest r.2

/-- The function `int set_app_affinity(uint num_cores)`: the return value and
the state after the call.  A `uint` argument is below `2 ^ 32` and
`CPU_SETSIZE` is an `int` constant, so neither the range check nor the counter
of the mask loop can overflow, and natural numbers are used as they are. -/
def set_app_affinity (P : Platform) (env : Env) (num_cores : Nat) (s : State) :
    Int × State :=
  if num_cores < 1 ∨ num_cores > P.CPU_SETSIZE then
    (-2, s)
  else
    let cpumask := build_cpumask P num_cores
    let o := opendir env s
    if o.1 then
      let s1 := { o.2 with errno := 0 }
      let l := scan P env cpumask env.entries s1
      match l.1 with
      | some code => (code, l.2)
      | none =>
        if l.2.errno ≠ 0 then (-1, l.2)
        else (0, closedir l.2)
    else
      (-1, o.2)

/-! ## Vocabulary of the statements -/

/-- The thread id `atoi` reads from a name. -/
def atoi_value (P : Platform) (nptr : List Char) : Int :=
  to_int (strtol_result P nptr).1

/-- The name denotes a number outside the range of `long`: `atoi` sets
`errno` to `ERANGE`. -/
def out_of_range (P : Platform) (nptr : List Char) : Prop :=
  (strtol_result P nptr).2 = true

instance (P : Platform) (nptr : List Char) : Decidable (out_of_range P nptr) := by
  unfold out_of_range; infer_instance

/-- An entry is listed when its name does not begin with `.`; the loop calls
`sched_setaffinity` for the listed entries only. -/
def listed (e : TaskEntry) : Prop := first_char e.d_name ≠ '.'

instance (e : TaskEntry) : Decidable (listed e) := by
  unfold listed; infer_instance

/-- A hard failure: the affinity call for a listed entry fails with `EINVAL` or
with `EPERM`. -/
def hard (P : Platform) (e : TaskEntry) : Prop :=
  listed e ∧ (e.answer = Answer.fail P.EINVAL ∨ e.answer = Answer.fail P.EPERM)

instance (P : Platform) (e : TaskEntry) : Decidable (hard P e) := by
  unfold hard; infer_instance

/-- The affinity calls the loop makes when it goes through all of `entries`:
one per listed entry, in order, with the thread id read by `atoi`. -/
def calls_for (P : Platform) (cpumask : Nat) (entries : List TaskEntry) : List (Int × Nat) :=
  (entries.filter (fun e => decide (listed e))).map
    (fun e => (atoi_value P e.d_name, cpumask))

/-- The threads addressed by the listed entries. -/
def targets (P : Platform) (self_tid : Int) (entries : List TaskEntry) : List Int :=
  (entries.filter (fun e => decide (listed e))).map
    (fun e => target self_tid (atoi_value P e.d_name))

/-- Some listed entry of the list has a name outside the range of `long`. -/
def some_out_of_range (P : Platform) (entries : List TaskEntry) : Prop :=
  ∃ x ∈ entries, listed x ∧ out_of_range P x.d_name

instance (P : Platform) (entries : List TaskEntry) :
    Decidable (some_out_of_range P entries) := by
  unfold some_out_of_range; infer_instance

/-- One iteration of the loop that does not return: the `readdir` and, for a
listed entry, the conversion of the name and the affinity call. -/
def visit (P : Platform) (env : Env) (cpumask : Nat) (e : TaskEntry) (s : State) : State :=
  let s1 := { s with trace := s.trace ++ [Call.readdir] }
  if first_char e.d_name = '.' then s1
  else
    (sched_setaffinity env (atoi P e.d_name s1).1 cpumask e.answer (atoi P e.d_name s1).2).2

/-- Several iterations that do not return. -/
def visits (P : Platform) (env : Env) (cpumask : Nat) (entries : List TaskEntry)
    (s : State) : State :=
  entries.foldl (fun s e => visit P env cpumask e s) s

/-- The calls of one iteration: a `readdir`, then for a listed entry one
`sched_setaffinity` with the id read from the name. -/
def visit_calls (P : Platform) (m : Nat) (e : TaskEntry) : List Call :=
  if first_char e.d_name = '.' then [Call.readdir]
  else [Call.readdir, Call.sched_setaffinity (atoi_value P e.d_name) m]

/-- The calls of several iterations. -/
def visits_calls (P : Platform) (m : Nat) : List TaskEntry → List Call
  | [] => []
  | e :: rest => visit_calls P m e ++ visits_calls P m rest

/-- The number of `closedir` calls of a trace. -/
def closedir_count : List Call → Nat
  | [] => 0
  | Call.closedir :: t => closedir_count t + 1
  | _ :: t => closedir_count t

/-- The state in which the loop starts: the handle is open and line 41 has
cleared `errno`. -/
def opened (s : State) : State :=
  { s with errno := 0, open_dirs := s.open_dirs + 1, trace := s.trace ++ [Call.opendir] }

/-- The state after the `readdir` that returns `NULL` and ends the loop. -/
def finish (se : StreamEnd) (s : State) : State :=
  match se with
  | StreamEnd.eof => { s with trace := s.trace ++ [Call.readdir] }
  | StreamEnd.error e => { s with trace := s.trace ++ [Call.readdir], errno := e }

/-! ## The conversion `atoi` is to perform, stated on its own

A name is read as white space, an optional sign, a run of decimal digits and
a rest that does not continue the run. -/

/-- The white-space characters of the C locale. -/
def white_space : List Char := [' ', '\t', '\n', '\x0b', '\x0c', '\r']

/-- The decimal digits, each at the position of its value. -/
def decimal_digits : List Char := ['0', '1', '2', '3', '4', '5', '6', '7', '8', '9']

/-- The number a run of decimal digits denotes. -/
def decimal_value (ds : List Char) : Nat :=
  ds.foldl (fun v c => 10 * v + decimal_digits.indexOf c) 0

/-- The number denoted by a sign (`sg` is empty, `+` or `-`) and a run of
digits. -/
def signed_value (sg ds : List Char) : Int :=
  if sg = ['-'] then -(decimal_value ds : Int) else (decimal_value ds : Int)

/-- A number brought into the range of `long`: beyond it, the nearest end. -/
def clamp_long (P : Platform) (v : Int) : Int :=
  if v > P.LONG_MAX then P.LONG_MAX else if v < -P.LONG_MAX - 1 then -P.LONG_MAX - 1 else v

/-! ## Sample inputs -/

/-- A state before any call: every thread may run on the first 8 cores. -/
def s0 : State := ⟨0, fun _ => 255, 0, []⟩

/-- An entry whose affinity call succeeds. -/
def entry_ok (name : String) : TaskEntry := ⟨name.toList, Answer.ok⟩

/-- An entry whose affinity call fails with `errno = e`. -/
def entry_fail (name : String) (e : Int) : TaskEntry := ⟨name.toList, Answer.fail e⟩

/-- A process with three threads 4711, 4712, 4713, the first one calling, on a
machine with 8 CPUs; all stay alive. -/
def env3 : Env :=
  ⟨4711, fun _ => 255, Answer.ok,
   [entry_ok ".", entry_ok "..", entry_ok "4711", entry_ok "4712", entry_ok "4713"],
   StreamEnd.eof⟩

/-- The same process on a machine with 4 CPUs. -/
def env3_four_cpus : Env :=
  ⟨4711, fun _ => 15, Answer.ok,
   [entry_ok ".", entry_ok "..", entry_ok "4711", entry_ok "4712", entry_ok "4713"],
   StreamEnd.eof⟩

/-- A listing with an entry whose name denotes a number above `LONG_MAX`. -/
def env_huge : Env :=
  ⟨4711, fun _ => 255, Answer.ok,
   [entry_ok ".", entry_ok "..", entry_ok "4711", entry_ok "99999999999999999999"],
   StreamEnd.eof⟩

/-- The process of `env3` when the affinity call for thread 4712 fails with
`errno = e`. -/
def env_fail (e : Int) : Env :=
  ⟨4711, fun _ => 255, Answer.ok,
   [entry_ok ".", entry_ok "..", entry_ok "4711", entry_fail "4712" e, entry_ok "4713"],
   StreamEnd.eof⟩

/-- The process of `env3` when `/proc/self/task` cannot be opened (`ENOENT`). -/
def env_no_dir : Env :=
  ⟨4711, fun _ => 255, Answer.fail 2,
   [entry_ok ".", entry_ok "..", entry_ok "4711", entry_ok "4712", entry_ok "4713"],
   StreamEnd.eof⟩

/-- A listing with an entry whose name is not a number. -/
def env_abc : Env :=
  ⟨4711, fun _ => 255, Answer.ok,
   [entry_ok ".", entry_ok "..", entry_ok "4712", entry_ok "abc", entry_ok "4713"],
   StreamEnd.eof⟩

/-- A listing with an entry whose name has white space, a sign, digits and a
rest. -/
def env_signed : Env :=
  ⟨4711, fun _ => 255, Answer.ok,
   [entry_ok ".", entry_ok "..", entry_ok " -0470x"],
   StreamEnd.eof⟩

/-! ## The conversion of a name -/

theorem atoi_eq (P : Platform) (nptr : List Char) (s : State) :
    atoi P nptr s
      = (atoi_value P nptr, if out_of_range P nptr then { s with errno := P.ERANGE } else s) :=
  rfl

theorem atoi_trace (P : Platform) (nptr : List Char) (s : State) :
    (atoi P nptr s).2.trace = s.trace := by
  rw [atoi_eq]
  by_cases h : out_of_range P nptr <;> simp [h]

theorem atoi_affinity (P : Platform) (nptr : List Char) (s : State) :
    (atoi P nptr s).2.affinity = s.affinity := by
  rw [atoi_eq]
  by_cases h : out_of_range P nptr <;> simp [h]

theorem atoi_open_dirs (P : Platform) (nptr : List Char) (s : State) :
    (atoi P nptr s).2.open_dirs = s.open_dirs := by
  rw [atoi_eq]
  by_cases h : out_of_range P nptr <;> simp [h]

theorem atoi_errno (P : Platform) (nptr : List Char) (s : State) :
    (atoi P nptr s).2.errno = if out_of_range P nptr then P.ERANGE else s.errno := by
  rw [atoi_eq]
  by_cases h : out_of_range P nptr <;> simp [h]

theorem atoi_fst (P : Platform) (nptr : List Char) (s : State) :
    (atoi P nptr s).1 = atoi_value P nptr := rfl

/-! ## The loop, entry by entry -/

theorem scan_cons_soft (P : Platform) (env : Env) (m : Nat)
    (e : TaskEntry) (rest : List TaskEntry) (s : State) (h : ¬ hard P e) :
    scan P env m (e :: rest) s = scan P env m rest (visit P env m e s) := by
  rcases e with ⟨name, a⟩
  by_cases hd : first_char name = '.'
  · simp [scan, visit, hd]
  · cases a with
    | ok => simp [scan, visit, hd, sched_setaffinity]
    | fail c =>
      have h1 : c ≠ P.EINVAL := fun hc => h ⟨hd, Or.inl (by simp [hc])⟩
      have h2 : c ≠ P.EPERM := fun hc => h ⟨hd, Or.inr (by simp [hc])⟩
      simp [scan, visit, hd, sched_setaffinity, h1, h2]

theorem scan_append_soft (P : Platform) (env : Env) (m : Nat)
    (pre rest : List TaskEntry) (s : State) (h : ∀ e ∈ pre, ¬ hard P e) :
    scan P env m (pre ++ rest) s = scan P env m rest (visits P env m pre s) := by
  induction pre generalizing s with
  | nil => rfl
  | cons e pre ih =>
    rw [List.cons_append, scan_cons_soft P env m e _ s (h e (List.mem_cons_self _ _)),
      ih _ (fun x hx => h x (List.mem_cons_of_mem _ hx))]
    rfl

theorem scan_cons_einval (P : Platform) (env : Env) (m : Nat)
    (e : TaskEntry) (rest : List TaskEntry) (s : State) (hl : listed e)
    (ha : e.answer = Answer.fail P.EINVAL) :
    scan P env m (e :: rest) s = (some (-2), visit P env m e s) := by
  rcases e with ⟨name, a⟩
  have hd : ¬ first_char name = '.' := hl
  simp only at ha
  subst ha
  simp [scan, visit, hd, sched_setaffinity]

theorem scan_cons_eperm (P : Platform) (env : Env) (m : Nat)
    (e : TaskEntry) (rest : List TaskEntry) (s : State) (hl : listed e)
    (ha : e.answer = Answer.fail P.EPERM) (hne : P.EINVAL ≠ P.EPERM) :
    scan P env m (e :: rest) s = (some (-3), visit P env m e s) := by
  rcases e with ⟨name, a⟩
  have hd : ¬ first_char name = '.' := hl
  simp only at ha
  subst ha
  simp [scan, visit, hd, sched_setaffinity, hne.symm]

theorem scan_nil (P : Platform) (env : Env) (m : Nat) (s : State) :
    scan P env m [] s = (none, finish env.stream_end s) := by
  unfold scan finish
  cases env.stream_end <;> rfl

/-! ## What one iteration does -/

theorem affinity_calls_append (a b : List Call) :
    affinity_calls (a ++ b) = affinity_calls a ++ affinity_calls b := by
  induction a with
  | nil => rfl
  | cons c a ih => cases c <;> simp [affinity_calls, ih]

theorem readdir_count_append (a b : List Call) :
    readdir_count (a ++ b) = readdir_count a + readdir_count b := by
  induction a with
  | nil => simp [readdir_count]
  | cons c a ih => cases c <;> simp [readdir_count, ih]; omega

theorem visit_trace (P : Platform) (env : Env) (m : Nat) (e : TaskEntry) (s : State) :
    (visit P env m e s).trace = s.trace ++ visit_calls P m e := by
  rcases e with ⟨name, a⟩
  by_cases hd : first_char name = '.'
  · simp [visit, visit_calls, hd]
  · cases a <;> simp [visit, visit_calls, hd, sched_setaffinity, atoi_trace, atoi_fst]

theorem visit_open_dirs (P : Platform) (env : Env) (m : Nat) (e : TaskEntry) (s : State) :
    (visit P env m e s).open_dirs = s.open_dirs := by
  rcases e with ⟨name, a⟩
  by_cases hd : first_char name = '.'
  · simp [visit, hd]
  · cases a <;> simp [visit, hd, sched_setaffinity, atoi_open_dirs]

theorem visit_errno (P : Platform) (env : Env) (m : Nat) (e : TaskEntry) (s : State) :
    (visit P env m e s).errno
      = if listed e then (match e.answer with
          | Answer.ok => if out_of_range P e.d_name then P.ERANGE else s.errno
          | Answer.fail c => c) else s.errno := by
  rcases e with ⟨name, a⟩
  by_cases hd : first_char name = '.'
  · simp [visit, hd, listed]
  · cases a <;> simp [visit, hd, sched_setaffinity, listed, atoi_errno]

theorem visit_affinity (P : Platform) (env : Env) (m : Nat) (e : TaskEntry) (s : State)
    (t : Int) :
    (visit P env m e s).affinity t
      = if listed e ∧ e.answer = Answer.ok ∧ t = target env.self_tid (atoi_value P e.d_name)
        then m &&& env.usable t else s.affinity t := by
  rcases e with ⟨name, a⟩
  by_cases hd : first_char name = '.'
  · simp [visit, hd, listed]
  · cases a <;> simp [visit, hd, sched_setaffinity, listed, atoi_affinity, atoi_fst]

/-! ## What several iterations do -/

theorem visits_cons (P : Platform) (env : Env) (m : Nat) (e : TaskEntry)
    (pre : List TaskEntry) (s : State) :
    visits P env m (e :: pre) s = visits P env m pre (visit P env m e s) := rfl

theorem visits_append (P : Platform) (env : Env) (m : Nat) (pre post : List TaskEntry)
    (s : State) :
    visits P env m (pre ++ post) s = visits P env m post (visits P env m pre s) := by
  simp [visits, List.foldl_append]

theorem visits_trace (P : Platform) (env : Env) (m : Nat) (pre : List TaskEntry) (s : State) :
    (visits P env m pre s).trace = s.trace ++ visits_calls P m pre := by
  induction pre generalizing s with
  | nil => simp [visits, visits_calls]
  | cons e pre ih => rw [visits_cons, ih, visit_trace, visits_calls, List.append_assoc]

theorem visits_open_dirs (P : Platform) (env : Env) (m : Nat) (pre : List TaskEntry)
    (s : State) :
    (visits P env m pre s).open_dirs = s.open_dirs := by
  induction pre generalizing s with
  | nil => rfl
  | cons e pre ih => rw [visits_cons, ih, visit_open_dirs]

theorem affinity_calls_visits (P : Platform) (m : Nat) (pre : List TaskEntry) :
    affinity_calls (visits_calls P m pre) = calls_for P m pre := by
  induction pre with
  | nil => rfl
  | cons e pre ih =>
    rw [visits_calls, affinity_calls_append, ih]
    by_cases hd : first_char e.d_name = '.'
    · simp [visit_calls, hd, calls_for, listed, affinity_calls]
    · simp [visit_calls, hd, calls_for, listed, affinity_calls]

theorem readdir_count_visits (P : Platform) (m : Nat) (pre : List TaskEntry) :
    readdir_count (visits_calls P m pre) = pre.length := by
  induction pre with
  | nil => rfl
  | cons e pre ih =>
    rw [visits_calls, readdir_count_append, ih]
    by_cases hd : first_char e.d_name = '.'
    · simp [visit_calls, hd, readdir_count]; omega
    · simp [visit_calls, hd, readdir_count]; omega

theorem visits_calls_kinds (P : Platform) (m : Nat) (pre : List TaskEntry) :
    ∀ c ∈ visits_calls P m pre,
      c = Call.readdir ∨ ∃ tid, c = Call.sched_setaffinity tid m := by
  induction pre with
  | nil => simp [visits_calls]
  | cons e pre ih =>
    intro c hc
    rw [visits_calls, List.mem_append] at hc
    rcases hc with hc | hc
    · by_cases hd : first_char e.d_name = '.'
      · simp [visit_calls, hd] at hc; exact Or.inl hc
      · simp [visit_calls, hd] at hc
        rcases hc with hc | hc
        · exact Or.inl hc
        · exact Or.inr ⟨_, hc⟩
    · exact ih c hc

theorem some_out_of_range_cons (P : Platform) (e : TaskEntry) (pre : List TaskEntry) :
    some_out_of_range P (e :: pre)
      ↔ (listed e ∧ out_of_range P e.d_name) ∨ some_out_of_range P pre := by
  simp [some_out_of_range]

theorem visits_errno_ok (P : Platform) (env : Env) (m : Nat) (pre : List TaskEntry)
    (s : State) (h : ∀ e ∈ pre, listed e → e.answer = Answer.ok) :
    (visits P env m pre s).errno
      = if some_out_of_range P pre then P.ERANGE else s.errno := by
  induction pre generalizing s with
  | nil => simp [visits, some_out_of_range]
  | cons e pre ih =>
    rw [visits_cons, ih _ (fun x hx => h x (List.mem_cons_of_mem _ hx)), visit_errno]
    by_cases hp : some_out_of_range P pre
    · have hc : some_out_of_range P (e :: pre) :=
        (some_out_of_range_cons P e pre).mpr (Or.inr hp)
      simp [hp, hc]
    · by_cases hl : listed e
      · by_cases ho : out_of_range P e.d_name
        · have hc : some_out_of_range P (e :: pre) :=
            (some_out_of_range_cons P e pre).mpr (Or.inl ⟨hl, ho⟩)
          simp [hp, hc, hl, ho, h e (List.mem_cons_self _ _) hl]
        · have hc : ¬ some_out_of_range P (e :: pre) := by
            rw [some_out_of_range_cons]
            rintro (⟨-, hx⟩ | hx)
            · exact ho hx
            · exact hp hx
          simp [hp, hc, hl, ho, h e (List.mem_cons_self _ _) hl]
      · have hc : ¬ some_out_of_range P (e :: pre) := by
          rw [some_out_of_range_cons]
          rintro (⟨hx, -⟩ | hx)
          · exact hl hx
          · exact hp hx
        simp [hp, hc, hl]

theorem visits_affinity_frame (P : Platform) (env : Env) (m : Nat) (pre : List TaskEntry)
    (s : State) (t : Int) (h : t ∉ targets P env.self_tid pre) :
    (visits P env m pre s).affinity t = s.affinity t := by
  induction pre generalizing s with
  | nil => rfl
  | cons e pre ih =>
    have h1 : t ∉ targets P env.self_tid pre := by
      intro hx
      apply h
      simp only [targets, List.mem_map, List.mem_filter] at hx ⊢
      obtain ⟨x, ⟨hx1, hx2⟩, hx3⟩ := hx
      exact ⟨x, ⟨List.mem_cons_of_mem _ hx1, hx2⟩, hx3⟩
    rw [visits_cons, ih _ h1, visit_affinity]
    have h2 : ¬ (listed e ∧ e.answer = Answer.ok ∧
        t = target env.self_tid (atoi_value P e.d_name)) := by
      rintro ⟨hl, -, ht⟩
      apply h
      simp only [targets, List.mem_map, List.mem_filter]
      exact ⟨e, ⟨List.mem_cons_self _ _, by simpa using hl⟩, ht.symm⟩
    simp [h2]

theorem visits_affinity_keeps (P : Platform) (env : Env) (m : Nat) (pre : List TaskEntry)
    (s : State) (t : Int) (h : s.affinity t = m &&& env.usable t) :
    (visits P env m pre s).affinity t = m &&& env.usable t := by
  induction pre generalizing s with
  | nil => exact h
  | cons e pre ih =>
    rw [visits_cons]
    apply ih
    rw [visit_affinity]
    split <;> simp [h]

theorem visits_affinity_ok (P : Platform) (env : Env) (m : Nat) (pre : List TaskEntry)
    (s : State) (e : TaskEntry) (he : e ∈ pre) (hl : listed e) (ha : e.answer = Answer.ok) :
    (visits P env m pre s).affinity (target env.self_tid (atoi_value P e.d_name))
      = m &&& env.usable (target env.self_tid (atoi_value P e.d_name)) := by
  induction pre generalizing s with
  | nil => simp at he
  | cons x pre ih =>
    rw [visits_cons]
    rcases List.mem_cons.mp he with hx | hx
    · subst hx
      apply visits_affinity_keeps
      rw [visit_affinity]
      simp [hl, ha]
    · exact ih _ hx

/-! ## The loop on an arbitrary listing -/

theorem closedir_count_append (a b : List Call) :
    closedir_count (a ++ b) = closedir_count a + closedir_count b := by
  induction a with
  | nil => simp [closedir_count]
  | cons c a ih => cases c <;> simp [closedir_count, ih]; omega

theorem closedir_count_kinds (m : Nat) (evs : List Call)
    (h : ∀ c ∈ evs, c = Call.readdir ∨ ∃ tid, c = Call.sched_setaffinity tid m) :
    closedir_count evs = 0 := by
  induction evs with
  | nil => rfl
  | cons c evs ih =>
    have hc := h c (List.mem_cons_self _ _)
    have ht := ih (fun x hx => h x (List.mem_cons_of_mem _ hx))
    rcases hc with hc | ⟨tid, hc⟩ <;> subst hc <;> simpa [closedir_count] using ht

theorem visit_calls_kinds (P : Platform) (m : Nat) (e : TaskEntry) :
    ∀ c ∈ visit_calls P m e,
      c = Call.readdir ∨ ∃ tid, c = Call.sched_setaffinity tid m := by
  have h := visits_calls_kinds P m [e]
  simpa [visits_calls] using h

theorem scan_cons_hard (P : Platform) (env : Env) (m : Nat)
    (e : TaskEntry) (rest : List TaskEntry) (s : State) (h : hard P e) :
    ∃ code, (code = -2 ∨ code = -3) ∧
      scan P env m (e :: rest) s = (some code, visit P env m e s) := by
  obtain ⟨hl, ha⟩ := h
  by_cases h1 : e.answer = Answer.fail P.EINVAL
  · exact ⟨-2, Or.inl rfl, scan_cons_einval P env m e rest s hl h1⟩
  · have h2 : e.answer = Answer.fail P.EPERM := ha.resolve_left h1
    have hne : P.EINVAL ≠ P.EPERM := fun hx => h1 (by rw [h2, hx])
    exact ⟨-3, Or.inr rfl, scan_cons_eperm P env m e rest s hl h2 hne⟩

theorem finish_affinity (se : StreamEnd) (s : State) : (finish se s).affinity = s.affinity := by
  cases se <;> rfl

theorem finish_open_dirs (se : StreamEnd) (s : State) :
    (finish se s).open_dirs = s.open_dirs := by
  cases se <;> rfl

theorem finish_trace (se : StreamEnd) (s : State) :
    (finish se s).trace = s.trace ++ [Call.readdir] := by
  cases se <;> rfl

theorem finish_eof_errno (s : State) : (finish StreamEnd.eof s).errno = s.errno := rfl

theorem scan_general (P : Platform) (env : Env) (m : Nat)
    (entries : List TaskEntry) (s : State) :
    ∃ evs, (scan P env m entries s).2.trace = s.trace ++ evs ∧
      (∀ c ∈ evs, c = Call.readdir ∨ ∃ tid, c = Call.sched_setaffinity tid m) ∧
      (scan P env m entries s).2.open_dirs = s.open_dirs ∧
      (∀ code, (scan P env m entries s).1 = some code → code = -2 ∨ code = -3) := by
  induction entries generalizing s with
  | nil =>
    rw [scan_nil]
    refine ⟨[Call.readdir], finish_trace _ _, ?_, finish_open_dirs _ _, ?_⟩
    · intro c hc
      simp at hc
      exact Or.inl hc
    · intro code hc
      simp at hc
  | cons e rest ih =>
    by_cases hh : hard P e
    · obtain ⟨code, hcode, hs⟩ := scan_cons_hard P env m e rest s hh
      rw [hs]
      refine ⟨visit_calls P m e, visit_trace _ _ _ _ _, visit_calls_kinds P m e,
        visit_open_dirs _ _ _ _ _, ?_⟩
      intro c hc
      simp only [Option.some.injEq] at hc
      rw [← hc]
      exact hcode
    · rw [scan_cons_soft P env m e rest s hh]
      obtain ⟨evs, h1, h2, h3, h4⟩ := ih (visit P env m e s)
      refine ⟨visit_calls P m e ++ evs, ?_, ?_, ?_, h4⟩
      · rw [h1, visit_trace, List.append_assoc]
      · intro c hc
        rcases List.mem_append.mp hc with hc | hc
        · exact visit_calls_kinds P m e c hc
        · exact h2 c hc
      · rw [h3, visit_open_dirs]

theorem scan_affinity_keeps (P : Platform) (env : Env) (m : Nat)
    (entries : List TaskEntry) (s : State) (t : Int) (h : s.affinity t = m &&& env.usable t) :
    (scan P env m entries s).2.affinity t = m &&& env.usable t := by
  induction entries generalizing s with
  | nil => rw [scan_nil, finish_affinity]; exact h
  | cons e rest ih =>
    have hv : (visit P env m e s).affinity t = m &&& env.usable t := by
      rw [visit_affinity]
      split <;> simp [h]
    by_cases hh : hard P e
    · obtain ⟨code, -, hs⟩ := scan_cons_hard P env m e rest s hh
      rw [hs]
      exact hv
    · rw [scan_cons_soft P env m e rest s hh]
      exact ih _ hv

theorem scan_reaches (P : Platform) (env : Env) (m : Nat)
    (pre post : List TaskEntry) (e : TaskEntry) (s : State)
    (hpre : ∀ x ∈ pre, ¬ hard P x) (hl : listed e) :
    (∃ evs, (scan P env m (pre ++ e :: post) s).2.trace
        = s.trace ++ visits_calls P m pre
          ++ [Call.readdir, Call.sched_setaffinity (atoi_value P e.d_name) m] ++ evs) ∧
    (e.answer = Answer.ok →
      (scan P env m (pre ++ e :: post) s).2.affinity
          (target env.self_tid (atoi_value P e.d_name))
        = m &&& env.usable (target env.self_tid (atoi_value P e.d_name))) := by
  have hl1 : ¬ first_char e.d_name = '.' := hl
  have hvc : visit_calls P m e
      = [Call.readdir, Call.sched_setaffinity (atoi_value P e.d_name) m] := by
    simp [visit_calls, hl1]
  rw [scan_append_soft P env m pre (e :: post) s hpre]
  by_cases hh : hard P e
  · obtain ⟨code, -, hs⟩ := scan_cons_hard P env m e post (visits P env m pre s) hh
    rw [hs]
    refine ⟨⟨[], ?_⟩, ?_⟩
    · simp only [visit_trace, visits_trace, hvc, List.append_nil]
    · intro ha
      simp only [visit_affinity]
      simp [hl, ha]
  · rw [scan_cons_soft P env m e post _ hh]
    refine ⟨?_, ?_⟩
    · obtain ⟨evs, ht, -⟩ := scan_general P env m post (visit P env m e (visits P env m pre s))
      exact ⟨evs, by rw [ht, visit_trace, visits_trace, hvc]⟩
    · intro ha
      apply scan_affinity_keeps
      rw [visit_affinity]
      simp [hl, ha]

/-! ## The function, branch by branch -/

theorem opened_trace (s : State) : (opened s).trace = s.trace ++ [Call.opendir] := rfl

theorem opened_errno (s : State) : (opened s).errno = 0 := rfl

theorem opened_affinity (s : State) : (opened s).affinity = s.affinity := rfl

theorem opened_open_dirs (s : State) : (opened s).open_dirs = s.open_dirs + 1 := rfl

theorem closedir_affinity (s : State) : (closedir s).affinity = s.affinity := rfl

theorem closedir_trace (s : State) : (closedir s).trace = s.trace ++ [Call.closedir] := rfl

theorem set_app_affinity_invalid (P : Platform) (env : Env) (n : Nat) (s : State)
    (h : n < 1 ∨ n > P.CPU_SETSIZE) : set_app_affinity P env n s = (-2, s) := by
  unfold set_app_affinity
  rw [if_pos h]

theorem set_app_affinity_no_dir (P : Platform) (env : Env) (n : Nat) (s : State)
    (h1 : 1 ≤ n) (h2 : n ≤ P.CPU_SETSIZE) (e : Int) (ho : env.opendir = Answer.fail e) :
    set_app_affinity P env n s
      = (-1, { s with errno := e, trace := s.trace ++ [Call.opendir] }) := by
  have h : ¬ (n < 1 ∨ n > P.CPU_SETSIZE) := by omega
  unfold set_app_affinity
  rw [if_neg h]
  simp [opendir, ho]

theorem set_app_affinity_dir (P : Platform) (env : Env) (n : Nat) (s : State)
    (h1 : 1 ≤ n) (h2 : n ≤ P.CPU_SETSIZE) (ho : env.opendir = Answer.ok) :
    set_app_affinity P env n s
      = match (scan P env (build_cpumask P n) env.entries (opened s)).1 with
        | some code => (code, (scan P env (build_cpumask P n) env.entries (opened s)).2)
        | none =>
          if (scan P env (build_cpumask P n) env.entries (opened s)).2.errno ≠ 0
          then (-1, (scan P env (build_cpumask P n) env.entries (opened s)).2)
          else (0, closedir (scan P env (build_cpumask P n) env.entries (opened s)).2) := by
  have h : ¬ (n < 1 ∨ n > P.CPU_SETSIZE) := by omega
  unfold set_app_affinity
  rw [if_neg h]
  simp only [opendir, ho, opened, if_true, ne_eq]

theorem set_app_affinity_cases (P : Platform) (env : Env) (n : Nat) (s : State)
    (h1 : 1 ≤ n) (h2 : n ≤ P.CPU_SETSIZE) (ho : env.opendir = Answer.ok) :
    (∃ code, (code = -2 ∨ code = -3) ∧
      set_app_affinity P env n s
        = (code, (scan P env (build_cpumask P n) env.entries (opened s)).2)) ∨
    set_app_affinity P env n s
      = (-1, (scan P env (build_cpumask P n) env.entries (opened s)).2) ∨
    set_app_affinity P env n s
      = (0, closedir (scan P env (build_cpumask P n) env.entries (opened s)).2) := by
  obtain ⟨evs, -, -, -, hcode⟩ := scan_general P env (build_cpumask P n) env.entries (opened s)
  rw [set_app_affinity_dir P env n s h1 h2 ho]
  split
  · next code hc => exact Or.inl ⟨code, hcode code hc, rfl⟩
  · split
    · exact Or.inr (Or.inl rfl)
    · exact Or.inr (Or.inr rfl)

theorem not_hard_of_ok (P : Platform) (e : TaskEntry) (h : listed e → e.answer = Answer.ok) :
    ¬ hard P e := by
  rintro ⟨hl, ha | ha⟩ <;> simp [h hl] at ha

theorem set_app_affinity_soft (P : Platform) (env : Env) (n : Nat) (s : State)
    (h1 : 1 ≤ n) (h2 : n ≤ P.CPU_SETSIZE) (ho : env.opendir = Answer.ok)
    (hsoft : ∀ e ∈ env.entries, ¬ hard P e) :
    set_app_affinity P env n s
      = if (finish env.stream_end
              (visits P env (build_cpumask P n) env.entries (opened s))).errno ≠ 0
        then (-1, finish env.stream_end
              (visits P env (build_cpumask P n) env.entries (opened s)))
        else (0, closedir (finish env.stream_end
              (visits P env (build_cpumask P n) env.entries (opened s)))) := by
  have hscan := scan_append_soft P env (build_cpumask P n) env.entries [] (opened s) hsoft
  rw [List.append_nil, scan_nil] at hscan
  rw [set_app_affinity_dir P env n s h1 h2 ho, hscan]

theorem not_some_out_of_range (P : Platform) (entries : List TaskEntry)
    (h : ∀ e ∈ entries, listed e → ¬ out_of_range P e.d_name) :
    ¬ some_out_of_range P entries := by
  rintro ⟨x, hx, hl, ho⟩
  exact h x hx hl ho

theorem set_app_affinity_alive (P : Platform) (env : Env) (n : Nat) (s : State)
    (h1 : 1 ≤ n) (h2 : n ≤ P.CPU_SETSIZE) (ho : env.opendir = Answer.ok)
    (hse : env.stream_end = StreamEnd.eof)
    (halive : ∀ e ∈ env.entries, listed e → e.answer = Answer.ok)
    (hfit : ∀ e ∈ env.entries, listed e → ¬ out_of_range P e.d_name) :
    set_app_affinity P env n s
      = (0, closedir (finish StreamEnd.eof
              (visits P env (build_cpumask P n) env.entries (opened s)))) := by
  rw [set_app_affinity_soft P env n s h1 h2 ho
    (fun e he => not_hard_of_ok P e (halive e he)), hse, finish_eof_errno,
    visits_errno_ok _ _ _ _ _ halive, if_neg (not_some_out_of_range P _ hfit), opened_errno]
  simp

theorem visits_errno_one_failure (P : Platform) (env : Env) (m : Nat)
    (pre post : List TaskEntry) (e : TaskEntry) (c : Int) (s : State) (hl : listed e)
    (ha : e.answer = Answer.fail c)
    (hpost : ∀ x ∈ post, listed x → x.answer = Answer.ok) :
    (visits P env m (pre ++ e :: post) s).errno
      = if some_out_of_range P post then P.ERANGE else c := by
  rw [visits_append, visits_cons, visits_errno_ok _ _ _ _ _ hpost, visit_errno]
  simp [hl, ha]

theorem set_app_affinity_one_soft_failure (P : Platform) (env : Env) (n : Nat) (s : State)
    (pre post : List TaskEntry) (e : TaskEntry) (c : Int)
    (hr0 : P.ERANGE ≠ 0)
    (h1 : 1 ≤ n) (h2 : n ≤ P.CPU_SETSIZE) (ho : env.opendir = Answer.ok)
    (hse : env.stream_end = StreamEnd.eof) (hent : env.entries = pre ++ e :: post)
    (hl : listed e) (ha : e.answer = Answer.fail c)
    (hc0 : c ≠ 0) (hc1 : c ≠ P.EINVAL) (hc2 : c ≠ P.EPERM)
    (hpre : ∀ x ∈ pre, listed x → x.answer = Answer.ok)
    (hpost : ∀ x ∈ post, listed x → x.answer = Answer.ok) :
    set_app_affinity P env n s
      = (-1, finish StreamEnd.eof
              (visits P env (build_cpumask P n) (pre ++ e :: post) (opened s))) ∧
    (finish StreamEnd.eof
        (visits P env (build_cpumask P n) (pre ++ e :: post) (opened s))).errno
      = if some_out_of_range P post then P.ERANGE else c := by
  have herr := visits_errno_one_failure P env (build_cpumask P n) pre post e c
    (opened s) hl ha hpost
  have hsoft : ∀ x ∈ env.entries, ¬ hard P x := by
    intro x hx
    rw [hent] at hx
    rcases List.mem_append.mp hx with hx | hx
    · exact not_hard_of_ok P x (hpre x hx)
    · rcases List.mem_cons.mp hx with hx | hx
      · subst hx
        rintro ⟨-, hh | hh⟩
        · rw [ha] at hh
          exact hc1 (Answer.fail.inj hh)
        · rw [ha] at hh
          exact hc2 (Answer.fail.inj hh)
      · exact not_hard_of_ok P x (hpost x hx)
  refine ⟨?_, by rw [finish_eof_errno, herr]⟩
  rw [set_app_affinity_soft P env n s h1 h2 ho hsoft, hse, hent, finish_eof_errno, herr]
  by_cases hp : some_out_of_range P post <;> simp [hp, hc0, hr0]

/-! ## The mask -/

theorem build_cpumask_succ (P : Platform) (n : Nat) (h : n < P.CPU_SETSIZE) :
    build_cpumask P (n + 1) = build_cpumask P n ||| 1 <<< n := by
  simp [build_cpumask, List.range_succ, List.foldl_append, CPU_SET, h]

theorem build_cpumask_testBit (P : Platform) (n : Nat) (h : n ≤ P.CPU_SETSIZE) (j : Nat) :
    (build_cpumask P n).testBit j = decide (j < n) := by
  induction n with
  | zero => simp [build_cpumask, CPU_ZERO]
  | succ n ih =>
    rw [build_cpumask_succ P n (by omega), Nat.testBit_or, ih (by omega), Nat.one_shiftLeft,
      Nat.testBit_two_pow]
    by_cases h1 : j < n
    · have h2 : j < n + 1 := by omega
      simp [h1, h2]
    · by_cases h3 : n = j
      · subst h3
        simp
      · have h2 : ¬ j < n + 1 := by omega
        simp [h1, h2, h3]

theorem build_cpumask_and_usable (P : Platform) (n : Nat) (h : n ≤ P.CPU_SETSIZE) (u : Nat)
    (hu : ∀ j, j < n → u.testBit j = true) :
    build_cpumask P n &&& u = build_cpumask P n := by
  apply Nat.eq_of_testBit_eq
  intro j
  rw [Nat.testBit_and, build_cpumask_testBit P n h]
  by_cases hj : j < n
  · simp [hj, hu j hj]
  · simp [hj]

/-! ## What `atoi` computes -/

theorem isdigit_of_mem (c : Char) (h : c ∈ decimal_digits) :
    isdigit c = true ∧ c.toNat - '0'.toNat = decimal_digits.indexOf c := by
  simp only [decimal_digits, List.mem_cons, List.mem_singleton, List.not_mem_nil, or_false] at h
  rcases h with rfl | rfl | rfl | rfl | rfl | rfl | rfl | rfl | rfl | rfl <;> decide

theorem mem_of_isdigit (c : Char) (h : isdigit c = true) : c ∈ decimal_digits := by
  simp only [isdigit, Bool.and_eq_true, decide_eq_true_eq] at h
  obtain ⟨h1, h2⟩ := h
  have h1n : 48 ≤ c.toNat := h1
  have h2n : c.toNat ≤ 57 := h2
  have hc : c = Char.ofNat c.toNat := (Char.ofNat_toNat c).symm
  generalize c.toNat = n at hc h1n h2n
  subst hc
  interval_cases n <;> decide

theorem isspace_iff (c : Char) : isspace c = true ↔ c ∈ white_space := by
  simp [isspace, white_space, or_assoc]

theorem not_isspace_of_digit (c : Char) (h : c ∈ decimal_digits) : isspace c = false := by
  simp only [decimal_digits, List.mem_cons, List.mem_singleton, List.not_mem_nil, or_false] at h
  rcases h with rfl | rfl | rfl | rfl | rfl | rfl | rfl | rfl | rfl | rfl <;> decide

theorem not_sign_of_digit (c : Char) (h : c ∈ decimal_digits) : c ≠ '-' ∧ c ≠ '+' := by
  simp only [decimal_digits, List.mem_cons, List.mem_singleton, List.not_mem_nil, or_false] at h
  rcases h with rfl | rfl | rfl | rfl | rfl | rfl | rfl | rfl | rfl | rfl <;> decide

theorem dropWhile_isspace_append (ws r : List Char) (hws : ∀ c ∈ ws, c ∈ white_space)
    (hr : ∀ c, r.head? = some c → isspace c = false) :
    (ws ++ r).dropWhile isspace = r := by
  induction ws with
  | nil =>
    cases r with
    | nil => rfl
    | cons c r => simp [List.dropWhile, hr c rfl]
  | cons w ws ih =>
    have hw : isspace w = true := (isspace_iff w).mpr (hws w (List.mem_cons_self _ _))
    simp only [List.cons_append, List.dropWhile, hw]
    exact ih (fun c hc => hws c (List.mem_cons_of_mem _ hc))

theorem atoi_digits_append (ds rest : List Char) (acc : Nat)
    (hds : ∀ c ∈ ds, c ∈ decimal_digits)
    (hrest : ∀ c, rest.head? = some c → c ∉ decimal_digits) :
    atoi_digits (ds ++ rest) acc
      = ds.foldl (fun v c => 10 * v + decimal_digits.indexOf c) acc := by
  induction ds generalizing acc with
  | nil =>
    cases rest with
    | nil => rfl
    | cons c rest =>
      have hc : isdigit c = false := by
        cases hd : isdigit c with
        | false => rfl
        | true => exact absurd (mem_of_isdigit c hd) (hrest c rfl)
      simp [atoi_digits, hc]
  | cons d ds ih =>
    obtain ⟨h1, h2⟩ := isdigit_of_mem d (hds d (List.mem_cons_self _ _))
    have hih := ih (acc * 10 + (d.toNat - '0'.toNat))
      (fun c hc => hds c (List.mem_cons_of_mem _ hc))
    simp only [List.cons_append, atoi_digits, h1, if_true, List.foldl_cons]
    rw [← h2, Nat.mul_comm 10 acc]
    exact hih

theorem atoi_signed_parts (sg ds rest : List Char)
    (hsg : sg = [] ∨ sg = ['+'] ∨ sg = ['-'])
    (hds : ∀ c ∈ ds, c ∈ decimal_digits)
    (hrest : ∀ c, rest.head? = some c → c ∉ decimal_digits)
    (hcanon : sg = [] → ds = [] →
      ∀ c, rest.head? = some c → c ∉ white_space ∧ c ≠ '+' ∧ c ≠ '-') :
    atoi_signed (sg ++ ds ++ rest) = signed_value sg ds := by
  have hd := atoi_digits_append ds rest 0 hds hrest
  rcases hsg with rfl | rfl | rfl
  · have hval : atoi_signed (ds ++ rest) = (atoi_digits (ds ++ rest) 0 : Int) := by
      cases hl : ds ++ rest with
      | nil => rfl
      | cons c t =>
        have hc : c ≠ '-' ∧ c ≠ '+' := by
          cases ds with
          | nil =>
            have hx := hcanon rfl rfl c (by simp at hl; simp [hl])
            exact ⟨hx.2.2, hx.2.1⟩
          | cons d ds =>
            simp only [List.cons_append, List.cons.injEq] at hl
            rw [← hl.1]
            exact not_sign_of_digit d (hds d (List.mem_cons_self _ _))
        unfold atoi_signed
        split
        · next h => simp only [List.cons.injEq] at h; exact absurd h.1 hc.1
        · next h => simp only [List.cons.injEq] at h; exact absurd h.1 hc.2
        · rfl
    simp only [List.nil_append, hval, hd, signed_value, decimal_value]
    simp
  · simp only [List.singleton_append, List.cons_append, atoi_signed, signed_value,
      decimal_value]
    simp
    exact hd
  · simp only [List.singleton_append, List.cons_append, atoi_signed, signed_value,
      decimal_value]
    simp
    exact hd

theorem atoi_value_parts (P : Platform) (ws sg ds rest : List Char)
    (hws : ∀ c ∈ ws, c ∈ white_space)
    (hsg : sg = [] ∨ sg = ['+'] ∨ sg = ['-'])
    (hds : ∀ c ∈ ds, c ∈ decimal_digits)
    (hrest : ∀ c, rest.head? = some c → c ∉ decimal_digits)
    (hcanon : sg = [] → ds = [] →
      ∀ c, rest.head? = some c → c ∉ white_space ∧ c ≠ '+' ∧ c ≠ '-') :
    atoi_value P (ws ++ sg ++ ds ++ rest) = to_int (clamp_long P (signed_value sg ds)) := by
  have hhead : ∀ c, (sg ++ ds ++ rest).head? = some c → isspace c = false := by
    intro c hc
    rcases hsg with rfl | rfl | rfl
    · cases ds with
      | nil =>
        have hx := (hcanon rfl rfl c (by simpa using hc)).1
        cases hs : isspace c with
        | false => rfl
        | true => exact absurd ((isspace_iff c).mp hs) hx
      | cons d ds =>
        simp only [List.nil_append, List.cons_append, List.head?_cons, Option.some.injEq] at hc
        rw [← hc]
        exact not_isspace_of_digit d (hds d (List.mem_cons_self _ _))
    · simp only [List.singleton_append, List.cons_append, List.head?_cons,
        Option.some.injEq] at hc
      rw [← hc]
      decide
    · simp only [List.singleton_append, List.cons_append, List.head?_cons,
        Option.some.injEq] at hc
      rw [← hc]
      decide
  have hdrop : (ws ++ sg ++ ds ++ rest).dropWhile isspace = sg ++ ds ++ rest := by
    rw [List.append_assoc, List.append_assoc, ← List.append_assoc sg]
    exact dropWhile_isspace_append ws _ hws hhead
  unfold atoi_value strtol_result
  simp only [hdrop, atoi_signed_parts sg ds rest hsg hds hrest hcanon, clamp_long]
  split
  · rfl
  · split <;> rfl

theorem to_int_of_fits (v : Int) (h1 : -2147483648 ≤ v) (h2 : v ≤ 2147483647) :
    to_int v = v := by
  unfold to_int
  have h : (v + 2 ^ 31) % 2 ^ 32 = v + 2 ^ 31 := Int.emod_eq_of_lt (by omega) (by omega)
  rw [h]
  omega

theorem signed_value_nil (sg : List Char) : signed_value sg [] = 0 := by
  unfold signed_value decimal_value
  split <;> simp

/-! ## The claims -/

/-- C1: when `num_cores` is 0 or greater than `CPU_SETSIZE`, `set_app_affinity`
returns -2 and the state is the one it started from, whatever the operating
system would have answered: no library call is made (the trace is unchanged, so
the directory is not opened and no `sched_setaffinity` is issued) and no
thread's affinity changes. -/
theorem invalid_core_count_no_effect (P : Platform) (env : Env) (num_cores : Nat) (s : State)
    (h : num_cores = 0 ∨ num_cores > P.CPU_SETSIZE) :
    set_app_affinity P env num_cores s = (-2, s) := by
  apply set_app_affinity_invalid
  rcases h with h | h
  · exact Or.inl (by omega)
  · exact Or.inr h

/-- C2: for `1 ≤ num_cores ≤ CPU_SETSIZE` the mask built by lines 29-32
contains exactly the cores `0 .. num_cores-1`: an index below `CPU_SETSIZE` is
in the mask if and only if it is below `num_cores`, and no bit at all is set
outside that range; and every `sched_setaffinity` call the invocation makes
carries that same mask. -/
theorem cpumask_exact_and_shared (P : Platform) (env : Env) (num_cores : Nat) (s : State)
    (h1 : 1 ≤ num_cores) (h2 : num_cores ≤ P.CPU_SETSIZE) :
    (∀ j, j < P.CPU_SETSIZE →
        (CPU_ISSET P j (build_cpumask P num_cores) = true ↔ j < num_cores)) ∧
    (∀ j, (build_cpumask P num_cores).testBit j = true → j < num_cores) ∧
    ∃ evs, (set_app_affinity P env num_cores s).2.trace = s.trace ++ evs ∧
      ∀ tid mask, Call.sched_setaffinity tid mask ∈ evs → mask = build_cpumask P num_cores := by
  refine ⟨?_, ?_, ?_⟩
  · intro j hj
    simp [CPU_ISSET, hj, build_cpumask_testBit P num_cores h2]
  · intro j hj
    simpa [build_cpumask_testBit P num_cores h2] using hj
  · cases ho : env.opendir with
    | fail e =>
      rw [set_app_affinity_no_dir P env num_cores s h1 h2 e ho]
      exact ⟨[Call.opendir], rfl, by simp⟩
    | ok =>
      rw [set_app_affinity_dir P env num_cores s h1 h2 ho]
      obtain ⟨evs, ht, hk, -, -⟩ := scan_general P env (build_cpumask P num_cores)
        env.entries (opened s)
      have key : ∀ l : List Call, (∀ c ∈ l, c = Call.closedir) →
          ∀ tid mask, Call.sched_setaffinity tid mask ∈ [Call.opendir] ++ evs ++ l →
            mask = build_cpumask P num_cores := by
        intro l hl tid mask hm
        simp only [List.mem_append, List.mem_singleton] at hm
        rcases hm with (hm | hm) | hm
        · cases hm
        · rcases hk _ hm with hx | ⟨t, hx⟩
          · cases hx
          · cases hx
            rfl
        · cases hl _ hm
      split
      · refine ⟨[Call.opendir] ++ evs ++ [], ?_, key [] (by simp)⟩
        simp only [ht, opened_trace, List.append_assoc, List.append_nil]
      · split
        · refine ⟨[Call.opendir] ++ evs ++ [], ?_, key [] (by simp)⟩
          simp only [ht, opened_trace, List.append_assoc, List.append_nil]
        · refine ⟨[Call.opendir] ++ evs ++ [Call.closedir], ?_, key [Call.closedir] (by simp)⟩
          simp only [closedir, ht, opened_trace, List.append_assoc]

/-- C6: for a valid `num_cores`, when `opendir` fails (with any `errno`),
`set_app_affinity` returns -1; the only library call made is that `opendir`, so
no `sched_setaffinity` is issued, and no thread's affinity changes. -/
theorem no_directory_no_mutation (P : Platform) (env : Env) (num_cores : Nat) (s : State)
    (e : Int) (h1 : 1 ≤ num_cores) (h2 : num_cores ≤ P.CPU_SETSIZE)
    (ho : env.opendir = Answer.fail e) :
    (set_app_affinity P env num_cores s).1 = -1 ∧
    (set_app_affinity P env num_cores s).2.trace = s.trace ++ [Call.opendir] ∧
    affinity_calls (set_app_affinity P env num_cores s).2.trace = affinity_calls s.trace ∧
    (set_app_affinity P env num_cores s).2.affinity = s.affinity ∧
    (set_app_affinity P env num_cores s).2.open_dirs = s.open_dirs := by
  rw [set_app_affinity_no_dir P env num_cores s h1 h2 e ho]
  simp [affinity_calls_append, affinity_calls]

/-- C3, amended: for a valid `num_cores`, when the directory opens, the
enumeration ends without error, the affinity call succeeds for every listed
entry and every listed name denotes a number in the range of `long`,
`set_app_affinity` returns 0; the `sched_setaffinity` calls it makes are exactly
one per entry whose name does not begin with `.`, in enumeration order, with
the id read from the name and the constructed mask (entries beginning with `.`
get none); and afterwards the affinity of every listed thread is the
constructed mask restricted to the CPUs that thread may use, which is the mask
itself when the thread may use all of the cores `0 .. num_cores-1`. -/
theorem all_alive_success (P : Platform) (env : Env) (num_cores : Nat) (s : State)
    (h1 : 1 ≤ num_cores) (h2 : num_cores ≤ P.CPU_SETSIZE)
    (ho : env.opendir = Answer.ok) (hse : env.stream_end = StreamEnd.eof)
    (halive : ∀ e ∈ env.entries, listed e → e.answer = Answer.ok)
    (hfit : ∀ e ∈ env.entries, listed e → ¬ out_of_range P e.d_name) :
    (set_app_affinity P env num_cores s).1 = 0 ∧
    affinity_calls (set_app_affinity P env num_cores s).2.trace
      = affinity_calls s.trace ++
        (env.entries.filter (fun e => decide (first_char e.d_name ≠ '.'))).map
          (fun e => (atoi_value P e.d_name, build_cpumask P num_cores)) ∧
    ∀ e ∈ env.entries, first_char e.d_name ≠ '.' →
      (set_app_affinity P env num_cores s).2.affinity
          (target env.self_tid (atoi_value P e.d_name))
        = build_cpumask P num_cores
          &&& env.usable (target env.self_tid (atoi_value P e.d_name)) ∧
      ((∀ j, j < num_cores →
          (env.usable (target env.self_tid (atoi_value P e.d_name))).testBit j = true) →
        (set_app_affinity P env num_cores s).2.affinity
            (target env.self_tid (atoi_value P e.d_name))
          = build_cpumask P num_cores) := by
  rw [set_app_affinity_alive P env num_cores s h1 h2 ho hse halive hfit]
  refine ⟨rfl, ?_, ?_⟩
  · simp only [closedir_trace, finish_trace, visits_trace, opened_trace, affinity_calls_append,
      affinity_calls_visits]
    simp [affinity_calls, calls_for, listed]
  · intro e he hl
    simp only [closedir_affinity, finish_affinity]
    have hx := visits_affinity_ok P env (build_cpumask P num_cores) env.entries (opened s)
      e he hl (halive e he hl)
    refine ⟨hx, fun hu => ?_⟩
    rw [hx]
    exact build_cpumask_and_usable P num_cores h2 _ hu

/-- C4, as the code behaves: for a valid `num_cores`, when the directory opens,
the enumeration ends without error, the affinity call of one listed thread
fails with `ESRCH` and every other affinity call succeeds, the loop does go on
(an affinity call is made for every listed entry), but `errno` is still set at
the end-of-scan check (to `ESRCH`, or to `ERANGE` when a later name is outside
the range of `long`) and `set_app_affinity` returns -1, not 0. -/
theorem esrch_fails_the_call (P : Platform) (env : Env) (num_cores : Nat) (s : State)
    (pre post : List TaskEntry) (e : TaskEntry)
    (hP : P.wf) (h1 : 1 ≤ num_cores) (h2 : num_cores ≤ P.CPU_SETSIZE)
    (ho : env.opendir = Answer.ok) (hse : env.stream_end = StreamEnd.eof)
    (hent : env.entries = pre ++ e :: post)
    (hl : listed e) (ha : e.answer = Answer.fail P.ESRCH)
    (hpre : ∀ x ∈ pre, listed x → x.answer = Answer.ok)
    (hpost : ∀ x ∈ post, listed x → x.answer = Answer.ok) :
    (set_app_affinity P env num_cores s).1 = -1 ∧
    (set_app_affinity P env num_cores s).2.errno
      = (if some_out_of_range P post then P.ERANGE else P.ESRCH) ∧
    affinity_calls (set_app_affinity P env num_cores s).2.trace
      = affinity_calls s.trace ++ calls_for P (build_cpumask P num_cores) env.entries := by
  obtain ⟨p1, p2, p3, -, p5, p6, p7⟩ := hP
  obtain ⟨hr, herr⟩ := set_app_affinity_one_soft_failure P env num_cores s pre post e P.ESRCH
    (by omega) h1 h2 ho hse hent hl ha (by omega) (Ne.symm p5) (Ne.symm p6) hpre hpost
  rw [hr]
  refine ⟨rfl, herr, ?_⟩
  simp only [finish_trace, visits_trace, opened_trace, affinity_calls_append,
    affinity_calls_visits, hent]
  simp [affinity_calls]

/-- C8: for a valid `num_cores`, when the directory opens, the enumeration ends
without error, the affinity call of one listed thread fails with an `errno`
that is none of `EINVAL`, `EPERM`, `ESRCH` and every other affinity call
succeeds, `set_app_affinity` does not return at that thread: the failure stays
in `errno` (unless a later name outside the range of `long` replaces it by
`ERANGE`), the loop goes on to the end of the stream (one `readdir` per entry
and the final one) making an affinity call for every listed entry, the threads
listed after the failing one get the mask, restricted to the CPUs they may use,
and the call returns -1. -/
theorem unclassified_failure_reported_at_end (P : Platform) (env : Env) (num_cores : Nat)
    (s : State) (pre post : List TaskEntry) (e : TaskEntry) (c : Int)
    (hr0 : P.ERANGE ≠ 0)
    (h1 : 1 ≤ num_cores) (h2 : num_cores ≤ P.CPU_SETSIZE)
    (ho : env.opendir = Answer.ok) (hse : env.stream_end = StreamEnd.eof)
    (hent : env.entries = pre ++ e :: post)
    (hl : listed e) (ha : e.answer = Answer.fail c)
    (hc0 : c ≠ 0) (hc1 : c ≠ P.EINVAL) (hc2 : c ≠ P.EPERM) (hc3 : c ≠ P.ESRCH)
    (hpre : ∀ x ∈ pre, listed x → x.answer = Answer.ok)
    (hpost : ∀ x ∈ post, listed x → x.answer = Answer.ok) :
    (set_app_affinity P env num_cores s).1 = -1 ∧
    (set_app_affinity P env num_cores s).2.errno
      = (if some_out_of_range P post then P.ERANGE else c) ∧
    affinity_calls (set_app_affinity P env num_cores s).2.trace
      = affinity_calls s.trace ++ calls_for P (build_cpumask P num_cores) pre
        ++ (atoi_value P e.d_name, build_cpumask P num_cores)
          :: calls_for P (build_cpumask P num_cores) post ∧
    readdir_count (set_app_affinity P env num_cores s).2.trace
      = readdir_count s.trace + env.entries.length + 1 ∧
    ∀ x ∈ post, listed x →
      (set_app_affinity P env num_cores s).2.affinity
          (target env.self_tid (atoi_value P x.d_name))
        = build_cpumask P num_cores
          &&& env.usable (target env.self_tid (atoi_value P x.d_name)) := by
  have _ := hc3
  obtain ⟨hr, herr⟩ := set_app_affinity_one_soft_failure P env num_cores s pre post e c
    hr0 h1 h2 ho hse hent hl ha hc0 hc1 hc2 hpre hpost
  rw [hr]
  refine ⟨rfl, herr, ?_, ?_, ?_⟩
  · simp only [finish_trace, visits_trace, opened_trace, affinity_calls_append,
      affinity_calls_visits]
    have hl1 : first_char e.d_name ≠ '.' := hl
    simp [affinity_calls, calls_for, listed, hl1]
  · simp only [finish_trace, visits_trace, opened_trace, readdir_count_append,
      readdir_count_visits, hent]
    simp [readdir_count]
  · intro x hx hlx
    simp only [finish_affinity]
    rw [visits_append, visits_cons]
    exact visits_affinity_ok _ _ _ _ _ x hx hlx (hpost x hx hlx)

/-- C5: for a valid `num_cores`, when the directory opens and the affinity
call of a listed entry is the first to fail with `EINVAL` or `EPERM`
(no earlier entry has such a failure), `set_app_affinity` returns at once with
-2 for `EINVAL` and -3 for `EPERM`: the affinity calls made are those of the
entries before the failing one and the failing call itself, exactly one
`readdir` per entry up to the failing one was issued, so nothing is read or
called for the entries that come after, and a thread not addressed before the
failure keeps the affinity it had. -/
theorem hard_failure_aborts (P : Platform) (env : Env) (num_cores : Nat) (s : State)
    (pre post : List TaskEntry) (e : TaskEntry) (c : Int)
    (hne : P.EINVAL ≠ P.EPERM) (h1 : 1 ≤ num_cores) (h2 : num_cores ≤ P.CPU_SETSIZE)
    (ho : env.opendir = Answer.ok) (hent : env.entries = pre ++ e :: post)
    (hpre : ∀ x ∈ pre, ¬ hard P x)
    (hl : listed e) (ha : e.answer = Answer.fail c) (hc : c = P.EINVAL ∨ c = P.EPERM) :
    (c = P.EINVAL → (set_app_affinity P env num_cores s).1 = -2) ∧
    (c = P.EPERM → (set_app_affinity P env num_cores s).1 = -3) ∧
    affinity_calls (set_app_affinity P env num_cores s).2.trace
      = affinity_calls s.trace ++ calls_for P (build_cpumask P num_cores) pre
        ++ [(atoi_value P e.d_name, build_cpumask P num_cores)] ∧
    readdir_count (set_app_affinity P env num_cores s).2.trace
      = readdir_count s.trace + pre.length + 1 ∧
    ∀ t, t ∉ targets P env.self_tid pre →
      (set_app_affinity P env num_cores s).2.affinity t = s.affinity t := by
  have hl1 : ¬ first_char e.d_name = '.' := hl
  have hscan : ∃ code, (c = P.EINVAL → code = -2) ∧ (c = P.EPERM → code = -3) ∧
      scan P env (build_cpumask P num_cores) env.entries (opened s)
        = (some code, visit P env (build_cpumask P num_cores) e
            (visits P env (build_cpumask P num_cores) pre (opened s))) := by
    rw [hent, scan_append_soft P _ _ pre (e :: post) (opened s) hpre]
    rcases hc with hc | hc
    · refine ⟨-2, fun _ => rfl, fun h => absurd (hc.symm.trans h) hne, ?_⟩
      exact scan_cons_einval P _ _ e post _ hl (by rw [ha, hc])
    · refine ⟨-3, fun h => absurd (h.symm.trans hc) hne, fun _ => rfl, ?_⟩
      exact scan_cons_eperm P _ _ e post _ hl (by rw [ha, hc]) hne
  obtain ⟨code, hc1, hc2, hs⟩ := hscan
  rw [set_app_affinity_dir P env num_cores s h1 h2 ho, hs]
  refine ⟨hc1, hc2, ?_, ?_, ?_⟩
  · simp only [visit_trace, visits_trace, opened_trace, affinity_calls_append,
      affinity_calls_visits]
    simp [affinity_calls, visit_calls, hl1]
  · simp only [visit_trace, visits_trace, opened_trace, readdir_count_append,
      readdir_count_visits]
    simp [readdir_count, visit_calls, hl1]
  · intro t ht
    simp only [visit_affinity, ha]
    simp [visits_affinity_frame _ _ _ _ _ t ht, opened_affinity]

/-- C7, amended: for a valid `num_cores` and a stable thread set (the
directory opens, the same listing is read on both calls, the enumeration ends
without error, every affinity call succeeds and every listed name denotes a
number in the range of `long`), two calls in succession both return 0, every
thread has the same affinity after the second call as after the first, and for
every listed thread that affinity is the constructed mask restricted to the
CPUs the thread may use, which is the mask itself when the thread may use all
of the cores `0 .. num_cores-1`. -/
theorem idempotent_on_stable_threads (P : Platform) (env : Env) (num_cores : Nat) (s : State)
    (h1 : 1 ≤ num_cores) (h2 : num_cores ≤ P.CPU_SETSIZE)
    (ho : env.opendir = Answer.ok) (hse : env.stream_end = StreamEnd.eof)
    (halive : ∀ e ∈ env.entries, listed e → e.answer = Answer.ok)
    (hfit : ∀ e ∈ env.entries, listed e → ¬ out_of_range P e.d_name) :
    (set_app_affinity P env num_cores s).1 = 0 ∧
    (set_app_affinity P env num_cores (set_app_affinity P env num_cores s).2).1 = 0 ∧
    (∀ t, (set_app_affinity P env num_cores (set_app_affinity P env num_cores s).2).2.affinity t
        = (set_app_affinity P env num_cores s).2.affinity t) ∧
    ∀ e ∈ env.entries, listed e →
      (set_app_affinity P env num_cores s).2.affinity
          (target env.self_tid (atoi_value P e.d_name))
        = build_cpumask P num_cores
          &&& env.usable (target env.self_tid (atoi_value P e.d_name)) ∧
      ((∀ j, j < num_cores →
          (env.usable (target env.self_tid (atoi_value P e.d_name))).testBit j = true) →
        (set_app_affinity P env num_cores s).2.affinity
            (target env.self_tid (atoi_value P e.d_name))
          = build_cpumask P num_cores) := by
  have key : ∀ s0 : State, ∀ e ∈ env.entries, listed e →
      (set_app_affinity P env num_cores s0).2.affinity
          (target env.self_tid (atoi_value P e.d_name))
        = build_cpumask P num_cores
          &&& env.usable (target env.self_tid (atoi_value P e.d_name)) := by
    intro s0 e he hl
    rw [set_app_affinity_alive P env num_cores s0 h1 h2 ho hse halive hfit]
    simp only [closedir_affinity, finish_affinity]
    exact visits_affinity_ok _ _ _ _ _ e he hl (halive e he hl)
  refine ⟨?_, ?_, ?_, ?_⟩
  · rw [set_app_affinity_alive P env num_cores s h1 h2 ho hse halive hfit]
  · rw [set_app_affinity_alive P env num_cores _ h1 h2 ho hse halive hfit]
  · intro t
    by_cases ht : t ∈ targets P env.self_tid env.entries
    · simp only [targets, List.mem_map, List.mem_filter] at ht
      obtain ⟨e, ⟨he, hl⟩, rfl⟩ := ht
      have hl1 : listed e := by simpa using hl
      rw [key _ e he hl1, key s e he hl1]
    · rw [set_app_affinity_alive P env num_cores _ h1 h2 ho hse halive hfit]
      simp only [closedir_affinity, finish_affinity]
      rw [visits_affinity_frame _ _ _ _ _ t ht, opened_affinity]
  · intro e he hl
    refine ⟨key s e he hl, fun hu => ?_⟩
    rw [key s e he hl]
    exact build_cpumask_and_usable P num_cores h2 _ hu

/-- C9: for a valid `num_cores`, when the directory opens and the loop reaches
an entry whose name does not begin with `.` (no earlier entry has a hard
failure), and the name reads as white space, an optional sign, a run of decimal
digits and a rest that does not continue the run, then the thread id is what
`atoi` makes of it (the number denoted by sign and digits, brought into the
range of `long` and converted to `int`; that number itself when it fits an
`int`), and the next affinity call after those of the earlier entries is made
with that id.  When there is no digit the id is 0 and the entry is not skipped:
the call is made with thread id 0, which addresses the calling thread, and if it
succeeds the calling thread ends with the constructed mask restricted to the
CPUs it may use. -/
theorem thread_id_is_atoi_of_name (P : Platform) (env : Env) (num_cores : Nat)
    (s : State) (pre post : List TaskEntry) (e : TaskEntry) (ws sg ds rest : List Char)
    (hL : 0 ≤ P.LONG_MAX)
    (h1 : 1 ≤ num_cores) (h2 : num_cores ≤ P.CPU_SETSIZE)
    (ho : env.opendir = Answer.ok) (hent : env.entries = pre ++ e :: post)
    (hpre : ∀ x ∈ pre, ¬ hard P x) (hl : first_char e.d_name ≠ '.')
    (hname : e.d_name = ws ++ sg ++ ds ++ rest)
    (hws : ∀ c ∈ ws, c ∈ white_space)
    (hsg : sg = [] ∨ sg = ['+'] ∨ sg = ['-'])
    (hds : ∀ c ∈ ds, c ∈ decimal_digits)
    (hrest : ∀ c ∈ rest.head?, c ∉ decimal_digits)
    (hcanon : sg = [] → ds = [] → ∀ c ∈ rest.head?, c ∉ white_space ∧ c ≠ '+' ∧ c ≠ '-') :
    atoi_value P e.d_name = to_int (clamp_long P (signed_value sg ds)) ∧
    (2147483647 ≤ P.LONG_MAX → -2147483648 ≤ signed_value sg ds →
      signed_value sg ds ≤ 2147483647 → atoi_value P e.d_name = signed_value sg ds) ∧
    (∃ later, affinity_calls (set_app_affinity P env num_cores s).2.trace
        = affinity_calls s.trace ++ calls_for P (build_cpumask P num_cores) pre
          ++ (to_int (clamp_long P (signed_value sg ds)), build_cpumask P num_cores)
            :: later) ∧
    (ds = [] →
      atoi_value P e.d_name = 0 ∧
      (∃ later, affinity_calls (set_app_affinity P env num_cores s).2.trace
        = affinity_calls s.trace ++ calls_for P (build_cpumask P num_cores) pre
          ++ (0, build_cpumask P num_cores) :: later) ∧
      target env.self_tid (atoi_value P e.d_name) = env.self_tid ∧
      (e.answer = Answer.ok →
        (set_app_affinity P env num_cores s).2.affinity env.self_tid
          = build_cpumask P num_cores &&& env.usable env.self_tid)) := by
  have hval : atoi_value P e.d_name = to_int (clamp_long P (signed_value sg ds)) := by
    rw [hname]
    exact atoi_value_parts P ws sg ds rest hws hsg hds hrest hcanon
  obtain ⟨⟨evs, ht⟩, haff⟩ := scan_reaches P env (build_cpumask P num_cores)
    pre post e (opened s) hpre hl
  rw [← hent] at ht haff
  have hcalls : ∃ later, affinity_calls (set_app_affinity P env num_cores s).2.trace
      = affinity_calls s.trace ++ calls_for P (build_cpumask P num_cores) pre
        ++ (atoi_value P e.d_name, build_cpumask P num_cores) :: later := by
    rcases set_app_affinity_cases P env num_cores s h1 h2 ho with ⟨code, -, hr⟩ | hr | hr
    · refine ⟨affinity_calls evs, ?_⟩
      rw [hr]
      simp only [ht, opened_trace, affinity_calls_append, affinity_calls_visits]
      simp [affinity_calls]
    · refine ⟨affinity_calls evs, ?_⟩
      rw [hr]
      simp only [ht, opened_trace, affinity_calls_append, affinity_calls_visits]
      simp [affinity_calls]
    · refine ⟨affinity_calls evs, ?_⟩
      rw [hr]
      simp only [closedir_trace, ht, opened_trace, affinity_calls_append,
        affinity_calls_visits]
      simp [affinity_calls]
  have hfin : (set_app_affinity P env num_cores s).2.affinity
      = (scan P env (build_cpumask P num_cores) env.entries (opened s)).2.affinity := by
    rcases set_app_affinity_cases P env num_cores s h1 h2 ho with ⟨code, -, hr⟩ | hr | hr <;>
      simp only [hr, closedir_affinity]
  refine ⟨hval, ?_, ?_, ?_⟩
  · intro hL31 hlo hhi
    have hc : clamp_long P (signed_value sg ds) = signed_value sg ds := by
      unfold clamp_long
      rw [if_neg (by omega), if_neg (by omega)]
    rw [hval, hc, to_int_of_fits _ hlo hhi]
  · rw [← hval]
    exact hcalls
  · intro hnil
    have h0 : atoi_value P e.d_name = 0 := by
      rw [hval, hnil, signed_value_nil]
      have hc : clamp_long P 0 = 0 := by
        unfold clamp_long
        rw [if_neg (by omega), if_neg (by omega)]
      rw [hc]
      decide
    have htgt : target env.self_tid (atoi_value P e.d_name) = env.self_tid := by
      simp [target, h0]
    refine ⟨h0, ?_, htgt, ?_⟩
    · rw [← h0]
      exact hcalls
    · intro ha
      have hx := haff ha
      rw [htgt] at hx
      rw [hfin]
      exact hx

/-- C10: when `num_cores` is valid and `opendir` succeeds, the return value is
0, -1, -2 or -3, and the handle is released exactly when it is 0: on return 0
one `closedir` was called and no handle is left open, on every other return no
`closedir` was called and the handle acquired by `opendir` is still open.  On
the returns taken before acquisition (-2 from the range check, -1 from a failed
`opendir`) no handle was opened and none is closed. -/
theorem handle_released_iff_success (P : Platform) (env : Env) (num_cores : Nat) (s : State) :
    (1 ≤ num_cores → num_cores ≤ P.CPU_SETSIZE → env.opendir = Answer.ok →
      ((set_app_affinity P env num_cores s).1 = 0 ∨
        (set_app_affinity P env num_cores s).1 = -1 ∨
        (set_app_affinity P env num_cores s).1 = -2 ∨
        (set_app_affinity P env num_cores s).1 = -3) ∧
      ((set_app_affinity P env num_cores s).1 = 0 ↔
        closedir_count (set_app_affinity P env num_cores s).2.trace
          = closedir_count s.trace + 1) ∧
      ((set_app_affinity P env num_cores s).1 = 0 →
        (set_app_affinity P env num_cores s).2.open_dirs = s.open_dirs) ∧
      ((set_app_affinity P env num_cores s).1 ≠ 0 →
        (set_app_affinity P env num_cores s).2.open_dirs = s.open_dirs + 1 ∧
        closedir_count (set_app_affinity P env num_cores s).2.trace
          = closedir_count s.trace)) ∧
    (num_cores < 1 ∨ num_cores > P.CPU_SETSIZE →
      (set_app_affinity P env num_cores s).1 = -2 ∧
      (set_app_affinity P env num_cores s).2.open_dirs = s.open_dirs ∧
      (set_app_affinity P env num_cores s).2.trace = s.trace) ∧
    (1 ≤ num_cores → num_cores ≤ P.CPU_SETSIZE → ∀ e, env.opendir = Answer.fail e →
      (set_app_affinity P env num_cores s).1 = -1 ∧
      (set_app_affinity P env num_cores s).2.open_dirs = s.open_dirs ∧
      closedir_count (set_app_affinity P env num_cores s).2.trace
        = closedir_count s.trace) := by
  refine ⟨?_, ?_, ?_⟩
  · intro h1 h2 ho
    obtain ⟨evs, ht, hk, hod, -⟩ := scan_general P env (build_cpumask P num_cores)
      env.entries (opened s)
    have hcc : closedir_count (scan P env (build_cpumask P num_cores)
        env.entries (opened s)).2.trace = closedir_count s.trace := by
      rw [ht, opened_trace, closedir_count_append, closedir_count_append,
        closedir_count_kinds _ evs hk]
      simp [closedir_count]
    rcases set_app_affinity_cases P env num_cores s h1 h2 ho with ⟨code, hcode, hr⟩ | hr | hr
    · rw [hr]
      simp only [hcc, hod, opened_open_dirs]
      rcases hcode with rfl | rfl <;> simp
    · rw [hr]
      simp only [hcc, hod, opened_open_dirs]
      simp
    · rw [hr]
      simp only [closedir_trace, closedir_count_append, hcc]
      simp [closedir, closedir_count, hod, opened_open_dirs]
  · intro h
    rw [set_app_affinity_invalid P env num_cores s h]
    exact ⟨rfl, rfl, rfl⟩
  · intro h1 h2 e ho
    rw [set_app_affinity_no_dir P env num_cores s h1 h2 e ho]
    simp [closedir_count_append, closedir_count]

/-! ## The claims at sample inputs -/

theorem invalid_core_count_no_effect_witness :
    set_app_affinity linux env3 0 s0 = (-2, s0) ∧
    set_app_affinity linux env3 1025 s0 = (-2, s0) :=
  ⟨invalid_core_count_no_effect linux env3 0 s0 (Or.inl rfl),
   invalid_core_count_no_effect linux env3 1025 s0 (Or.inr (by decide))⟩

theorem cpumask_exact_and_shared_witness :
    (CPU_ISSET linux 0 (build_cpumask linux 2) = true ↔ 0 < 2) ∧
    (CPU_ISSET linux 1 (build_cpumask linux 2) = true ↔ 1 < 2) ∧
    (CPU_ISSET linux 2 (build_cpumask linux 2) = true ↔ 2 < 2) ∧
    build_cpumask linux 2 = 3 ∧
    ∃ evs, (set_app_affinity linux env3 2 s0).2.trace = s0.trace ++ evs ∧
      ∀ tid mask, Call.sched_setaffinity tid mask ∈ evs → mask = build_cpumask linux 2 :=
  ⟨(cpumask_exact_and_shared linux env3 2 s0 (by decide) (by decide)).1 0 (by decide),
   (cpumask_exact_and_shared linux env3 2 s0 (by decide) (by decide)).1 1 (by decide),
   (cpumask_exact_and_shared linux env3 2 s0 (by decide) (by decide)).1 2 (by decide),
   by decide,
   (cpumask_exact_and_shared linux env3 2 s0 (by decide) (by decide)).2.2⟩

/-- C3 as stated fails twice.  On a machine with 4 CPUs and `num_cores = 5`
every thread stays alive and the call returns 0, but thread 4712 ends with the
CPUs `0 .. 3` (15), not with the constructed mask `0 .. 4` (31).  And with a
listed name above `LONG_MAX` every affinity call succeeds and the enumeration
ends without error, but `atoi` leaves `ERANGE` in `errno` and the call returns
-1. -/
theorem all_alive_success_counterexample :
    (1 ≤ 5 ∧ 5 ≤ linux.CPU_SETSIZE ∧ env3_four_cpus.opendir = Answer.ok ∧
      env3_four_cpus.stream_end = StreamEnd.eof ∧
      (∀ e ∈ env3_four_cpus.entries, listed e → e.answer = Answer.ok) ∧
      (set_app_affinity linux env3_four_cpus 5 s0).1 = 0 ∧
      entry_ok "4712" ∈ env3_four_cpus.entries ∧
      (set_app_affinity linux env3_four_cpus 5 s0).2.affinity
          (target env3_four_cpus.self_tid (atoi_value linux (entry_ok "4712").d_name)) = 15 ∧
      ¬ (set_app_affinity linux env3_four_cpus 5 s0).2.affinity
          (target env3_four_cpus.self_tid (atoi_value linux (entry_ok "4712").d_name))
        = build_cpumask linux 5) ∧
    (1 ≤ 2 ∧ 2 ≤ linux.CPU_SETSIZE ∧ env_huge.opendir = Answer.ok ∧
      env_huge.stream_end = StreamEnd.eof ∧
      (∀ e ∈ env_huge.entries, listed e → e.answer = Answer.ok) ∧
      (set_app_affinity linux env_huge 2 s0).2.errno = linux.ERANGE ∧
      ¬ (set_app_affinity linux env_huge 2 s0).1 = 0) := by
  decide

theorem all_alive_success_witness :
    (set_app_affinity linux env3 2 s0).1 = 0 ∧
    affinity_calls (set_app_affinity linux env3 2 s0).2.trace
      = [(4711, 3), (4712, 3), (4713, 3)] ∧
    (set_app_affinity linux env3 2 s0).2.affinity 4713 = 3 &&& 255 ∧
    (set_app_affinity linux env3 2 s0).2.affinity 4713 = 3 ∧
    (set_app_affinity linux env3_four_cpus 5 s0).2.affinity 4713 = 31 &&& 15 :=
  ⟨(all_alive_success linux env3 2 s0 (by decide) (by decide) rfl rfl (by decide)
      (by decide)).1,
   (all_alive_success linux env3 2 s0 (by decide) (by decide) rfl rfl (by decide)
      (by decide)).2.1,
   ((all_alive_success linux env3 2 s0 (by decide) (by decide) rfl rfl (by decide)
      (by decide)).2.2 (entry_ok "4713") (by decide) (by decide)).1,
   ((all_alive_success linux env3 2 s0 (by decide) (by decide) rfl rfl (by decide)
      (by decide)).2.2 (entry_ok "4713") (by decide) (by decide)).2 (by decide),
   ((all_alive_success linux env3_four_cpus 5 s0 (by decide) (by decide) rfl rfl (by decide)
      (by decide)).2.2 (entry_ok "4713") (by decide) (by decide)).1⟩

theorem esrch_fails_the_call_witness :
    (set_app_affinity linux (env_fail linux.ESRCH) 2 s0).1 = -1 ∧
    (set_app_affinity linux (env_fail linux.ESRCH) 2 s0).2.errno = 3 ∧
    affinity_calls (set_app_affinity linux (env_fail linux.ESRCH) 2 s0).2.trace
      = [(4711, 3), (4712, 3), (4713, 3)] :=
  esrch_fails_the_call linux (env_fail linux.ESRCH) 2 s0
    [entry_ok ".", entry_ok "..", entry_ok "4711"] [entry_ok "4713"]
    (entry_fail "4712" linux.ESRCH)
    (by decide) (by decide) (by decide) rfl rfl rfl (by decide) rfl (by decide) (by decide)

theorem hard_failure_aborts_witness :
    (set_app_affinity linux (env_fail linux.EPERM) 2 s0).1 = -3 ∧
    (set_app_affinity linux (env_fail linux.EINVAL) 2 s0).1 = -2 ∧
    affinity_calls (set_app_affinity linux (env_fail linux.EPERM) 2 s0).2.trace
      = [(4711, 3), (4712, 3)] ∧
    readdir_count (set_app_affinity linux (env_fail linux.EPERM) 2 s0).2.trace = 4 ∧
    (set_app_affinity linux (env_fail linux.EPERM) 2 s0).2.affinity 4713 = 255 :=
  ⟨(hard_failure_aborts linux (env_fail linux.EPERM) 2 s0
      [entry_ok ".", entry_ok "..", entry_ok "4711"] [entry_ok "4713"]
      (entry_fail "4712" linux.EPERM) linux.EPERM
      (by decide) (by decide) (by decide) rfl rfl (by decide) (by decide) rfl
      (Or.inr rfl)).2.1 rfl,
   (hard_failure_aborts linux (env_fail linux.EINVAL) 2 s0
      [entry_ok ".", entry_ok "..", entry_ok "4711"] [entry_ok "4713"]
      (entry_fail "4712" linux.EINVAL) linux.EINVAL
      (by decide) (by decide) (by decide) rfl rfl (by decide) (by decide) rfl
      (Or.inl rfl)).1 rfl,
   (hard_failure_aborts linux (env_fail linux.EPERM) 2 s0
      [entry_ok ".", entry_ok "..", entry_ok "4711"] [entry_ok "4713"]
      (entry_fail "4712" linux.EPERM) linux.EPERM
      (by decide) (by decide) (by decide) rfl rfl (by decide) (by decide) rfl
      (Or.inr rfl)).2.2.1,
   (hard_failure_aborts linux (env_fail linux.EPERM) 2 s0
      [entry_ok ".", entry_ok "..", entry_ok "4711"] [entry_ok "4713"]
      (entry_fail "4712" linux.EPERM) linux.EPERM
      (by decide) (by decide) (by decide) rfl rfl (by decide) (by decide) rfl
      (Or.inr rfl)).2.2.2.1,
   (hard_failure_aborts linux (env_fail linux.EPERM) 2 s0
      [entry_ok ".", entry_ok "..", entry_ok "4711"] [entry_ok "4713"]
      (entry_fail "4712" linux.EPERM) linux.EPERM
      (by decide) (by decide) (by decide) rfl rfl (by decide) (by decide) rfl
      (Or.inr rfl)).2.2.2.2 4713 (by decide)⟩

theorem no_directory_no_mutation_witness :
    (set_app_affinity linux env_no_dir 2 s0).1 = -1 ∧
    (set_app_affinity linux env_no_dir 2 s0).2.trace = [Call.opendir] ∧
    affinity_calls (set_app_affinity linux env_no_dir 2 s0).2.trace = [] ∧
    (set_app_affinity linux env_no_dir 2 s0).2.affinity = s0.affinity ∧
    (set_app_affinity linux env_no_dir 2 s0).2.open_dirs = 0 :=
  no_directory_no_mutation linux env_no_dir 2 s0 2 (by decide) (by decide) rfl

/-- C7 as stated fails twice.  On a machine with 4 CPUs and `num_cores = 5`
both calls return 0 and leave the same affinity on thread 4712, but it is the
CPUs `0 .. 3` (15), not the constructed mask `0 .. 4` (31).  And with a listed
name above `LONG_MAX`, on an otherwise stable thread set, the first call
returns -1. -/
theorem idempotent_on_stable_threads_counterexample :
    (1 ≤ 5 ∧ 5 ≤ linux.CPU_SETSIZE ∧ env3_four_cpus.opendir = Answer.ok ∧
      env3_four_cpus.stream_end = StreamEnd.eof ∧
      (∀ e ∈ env3_four_cpus.entries, listed e → e.answer = Answer.ok) ∧
      (set_app_affinity linux env3_four_cpus 5 s0).1 = 0 ∧
      (set_app_affinity linux env3_four_cpus 5
        (set_app_affinity linux env3_four_cpus 5 s0).2).1 = 0 ∧
      (set_app_affinity linux env3_four_cpus 5
        (set_app_affinity linux env3_four_cpus 5 s0).2).2.affinity 4712 = 15 ∧
      (set_app_affinity linux env3_four_cpus 5 s0).2.affinity 4712 = 15 ∧
      ¬ (set_app_affinity linux env3_four_cpus 5
          (set_app_affinity linux env3_four_cpus 5 s0).2).2.affinity 4712
        = build_cpumask linux 5) ∧
    (1 ≤ 2 ∧ 2 ≤ linux.CPU_SETSIZE ∧ env_huge.opendir = Answer.ok ∧
      env_huge.stream_end = StreamEnd.eof ∧
      (∀ e ∈ env_huge.entries, listed e → e.answer = Answer.ok) ∧
      ¬ (set_app_affinity linux env_huge 2 s0).1 = 0 ∧
      ¬ (set_app_affinity linux env_huge 2 (set_app_affinity linux env_huge 2 s0).2).1 = 0) := by
  decide

theorem idempotent_on_stable_threads_witness :
    (set_app_affinity linux env3 2 s0).1 = 0 ∧
    (set_app_affinity linux env3 2 (set_app_affinity linux env3 2 s0).2).1 = 0 ∧
    (set_app_affinity linux env3 2 (set_app_affinity linux env3 2 s0).2).2.affinity 4712
      = (set_app_affinity linux env3 2 s0).2.affinity 4712 ∧
    (set_app_affinity linux env3 2 s0).2.affinity 4712 = 3 &&& 255 ∧
    (set_app_affinity linux env3 2 s0).2.affinity 4712 = 3 :=
  ⟨(idempotent_on_stable_threads linux env3 2 s0 (by decide) (by decide) rfl rfl
      (by decide) (by decide)).1,
   (idempotent_on_stable_threads linux env3 2 s0 (by decide) (by decide) rfl rfl
      (by decide) (by decide)).2.1,
   (idempotent_on_stable_threads linux env3 2 s0 (by decide) (by decide) rfl rfl
      (by decide) (by decide)).2.2.1 4712,
   ((idempotent_on_stable_threads linux env3 2 s0 (by decide) (by decide) rfl rfl
      (by decide) (by decide)).2.2.2 (entry_ok "4712") (by decide) (by decide)).1,
   ((idempotent_on_stable_threads linux env3 2 s0 (by decide) (by decide) rfl rfl
      (by decide) (by decide)).2.2.2 (entry_ok "4712") (by decide) (by decide)).2
      (by decide)⟩

theorem unclassified_failure_reported_at_end_witness :
    (set_app_affinity linux (env_fail 14) 2 s0).1 = -1 ∧
    (set_app_affinity linux (env_fail 14) 2 s0).2.errno = 14 ∧
    affinity_calls (set_app_affinity linux (env_fail 14) 2 s0).2.trace
      = [(4711, 3), (4712, 3), (4713, 3)] ∧
    readdir_count (set_app_affinity linux (env_fail 14) 2 s0).2.trace = 6 ∧
    (set_app_affinity linux (env_fail 14) 2 s0).2.affinity 4713 = 3 :=
  ⟨(unclassified_failure_reported_at_end linux (env_fail 14) 2 s0
      [entry_ok ".", entry_ok "..", entry_ok "4711"] [entry_ok "4713"]
      (entry_fail "4712" 14) 14 (by decide) (by decide) (by decide) rfl rfl rfl (by decide)
      rfl (by decide) (by decide) (by decide) (by decide) (by decide) (by decide)).1,
   (unclassified_failure_reported_at_end linux (env_fail 14) 2 s0
      [entry_ok ".", entry_ok "..", entry_ok "4711"] [entry_ok "4713"]
      (entry_fail "4712" 14) 14 (by decide) (by decide) (by decide) rfl rfl rfl (by decide)
      rfl (by decide) (by decide) (by decide) (by decide) (by decide) (by decide)).2.1,
   (unclassified_failure_reported_at_end linux (env_fail 14) 2 s0
      [entry_ok ".", entry_ok "..", entry_ok "4711"] [entry_ok "4713"]
      (entry_fail "4712" 14) 14 (by decide) (by decide) (by decide) rfl rfl rfl (by decide)
      rfl (by decide) (by decide) (by decide) (by decide) (by decide) (by decide)).2.2.1,
   (unclassified_failure_reported_at_end linux (env_fail 14) 2 s0
      [entry_ok ".", entry_ok "..", entry_ok "4711"] [entry_ok "4713"]
      (entry_fail "4712" 14) 14 (by decide) (by decide) (by decide) rfl rfl rfl (by decide)
      rfl (by decide) (by decide) (by decide) (by decide) (by decide) (by decide)).2.2.2.1,
   (unclassified_failure_reported_at_end linux (env_fail 14) 2 s0
      [entry_ok ".", entry_ok "..", entry_ok "4711"] [entry_ok "4713"]
      (entry_fail "4712" 14) 14 (by decide) (by decide) (by decide) rfl rfl rfl (by decide)
      rfl (by decide) (by decide) (by decide) (by decide) (by decide) (by decide)).2.2.2.2
      (entry_ok "4713") (by decide) (by decide)⟩

theorem thread_id_is_atoi_of_name_witness :
    atoi_value linux "abc".toList = 0 ∧
    (∃ later, affinity_calls (set_app_affinity linux env_abc 2 s0).2.trace
        = [(4712, 3), (0, 3)] ++ later) ∧
    (set_app_affinity linux env_abc 2 s0).2.affinity 4711 = 3 &&& 255 ∧
    atoi_value linux " -0470x".toList = -470 ∧
    (∃ later, affinity_calls (set_app_affinity linux env_signed 2 s0).2.trace
        = [(-470, 3)] ++ later) ∧
    atoi_value linux "99999999999999999999".toList = -1 :=
  ⟨((thread_id_is_atoi_of_name linux env_abc 2 s0
      [entry_ok ".", entry_ok "..", entry_ok "4712"] [entry_ok "4713"] (entry_ok "abc")
      [] [] [] "abc".toList
      (by decide) (by decide) (by decide) rfl rfl (by decide) (by decide) rfl
      (by decide) (by decide) (by decide) (by decide) (by decide)).2.2.2 rfl).1,
   ((thread_id_is_atoi_of_name linux env_abc 2 s0
      [entry_ok ".", entry_ok "..", entry_ok "4712"] [entry_ok "4713"] (entry_ok "abc")
      [] [] [] "abc".toList
      (by decide) (by decide) (by decide) rfl rfl (by decide) (by decide) rfl
      (by decide) (by decide) (by decide) (by decide) (by decide)).2.2.2 rfl).2.1,
   ((thread_id_is_atoi_of_name linux env_abc 2 s0
      [entry_ok ".", entry_ok "..", entry_ok "4712"] [entry_ok "4713"] (entry_ok "abc")
      [] [] [] "abc".toList
      (by decide) (by decide) (by decide) rfl rfl (by decide) (by decide) rfl
      (by decide) (by decide) (by decide) (by decide) (by decide)).2.2.2 rfl).2.2.2 rfl,
   (thread_id_is_atoi_of_name linux env_signed 2 s0
      [entry_ok ".", entry_ok ".."] [] (entry_ok " -0470x")
      [' '] ['-'] "0470".toList ['x']
      (by decide) (by decide) (by decide) rfl rfl (by decide) (by decide) rfl
      (by decide) (by decide) (by decide) (by decide) (by decide)).2.1
      (by decide) (by decide) (by decide),
   (thread_id_is_atoi_of_name linux env_signed 2 s0
      [entry_ok ".", entry_ok ".."] [] (entry_ok " -0470x")
      [' '] ['-'] "0470".toList ['x']
      (by decide) (by decide) (by decide) rfl rfl (by decide) (by decide) rfl
      (by decide) (by decide) (by decide) (by decide) (by decide)).2.2.1,
   (thread_id_is_atoi_of_name linux env_huge 2 s0
      [entry_ok ".", entry_ok "..", entry_ok "4711"] [] (entry_ok "99999999999999999999")
      [] [] "99999999999999999999".toList []
      (by decide) (by decide) (by decide) rfl rfl (by decide) (by decide) rfl
      (by decide) (by decide) (by decide) (by decide) (by decide)).1.trans (by decide)⟩

theorem handle_released_iff_success_witness :
    ((set_app_affinity linux env3 2 s0).1 = 0 ∧
      (set_app_affinity linux env3 2 s0).2.open_dirs = 0 ∧
      closedir_count (set_app_affinity linux env3 2 s0).2.trace = 1) ∧
    ((set_app_affinity linux (env_fail 1) 2 s0).1 = -3 ∧
      (set_app_affinity linux (env_fail 1) 2 s0).2.open_dirs = 1 ∧
      closedir_count (set_app_affinity linux (env_fail 1) 2 s0).2.trace = 0) ∧
    ((set_app_affinity linux env_no_dir 2 s0).1 = -1 ∧
      (set_app_affinity linux env_no_dir 2 s0).2.open_dirs = 0) :=
  ⟨⟨by decide,
    ((handle_released_iff_success linux env3 2 s0).1 (by decide) (by decide) rfl).2.2.1
      (by decide),
    ((handle_released_iff_success linux env3 2 s0).1 (by decide) (by decide) rfl).2.1.mp
      (by decide)⟩,
   ⟨by decide,
    (((handle_released_iff_success linux (env_fail 1) 2 s0).1 (by decide) (by decide)
      rfl).2.2.2 (by decide)).1,
    (((handle_released_iff_success linux (env_fail 1) 2 s0).1 (by decide) (by decide)
      rfl).2.2.2 (by decide)).2⟩,
   ⟨((handle_released_iff_success linux env_no_dir 2 s0).2.2 (by decide) (by decide) 2
      rfl).1,
    ((handle_released_iff_success linux env_no_dir 2 s0).2.2 (by decide) (by decide) 2
      rfl).2.1⟩⟩

end CAffinity
